import Mathlib

/-!
Verification development for the MoaT bus core (C sources under src/).

The message codec is embedded from src/TODO/bus/c/moatbus/msg/message.c,
which is the revision whose signatures match the callers in
src/moatbus/handler.c and src/moatbus/serial.c (argument order of
msg_add_chunk, presence of msg_bits / msg_sent_bits / msg_add_in and of the
prio field).  The bus handler is embedded from src/moatbus/handler.c and the
serial framer from src/moatbus/serial.c.

Conventions of the shallow embedding:
* machine integers are Nat with an explicit reduction (% 256 / % 65536)
  exactly where the C code stores into a narrower integer than the value
  computed on the right-hand side can fill;
* byte buffers are List Nat, realloc always succeeds (the heap is not
  modelled), and C asserts are NDEBUG no-ops;
* while-loops are embedded as structurally recursive functions on an explicit
  fuel argument whose initial value provably dominates the number of
  iterations of the C loop, so the functions compute.
-/

set_option linter.unusedVariables false

namespace MoatBus

/-- One byte of a buffer; reading out of range yields 0 (the modelled
executions never read out of range). -/
def byteAt (l : List Nat) (i : Nat) : Nat := l.getD i 0

/-- Store one byte; List.set is a no-op out of range (the modelled executions
never write out of range). -/
def setByte (l : List Nat) (i v : Nat) : List Nat := l.set i v

/-- C store of an int value into an int8_t field: reduce mod 256, two's
complement reading. -/
def toInt8 (n : Nat) : Int :=
  if n % 256 < 128 then ((n % 256 : Nat) : Int) else ((n % 256 : Nat) : Int) - 256

/-- C conversion of an int8_t (or int) value to u_int8_t: reduction mod 2^8.
Int.emod always returns a nonnegative value here. -/
def toU8 (i : Int) : Nat := (i % 256).toNat

/-- The BusMessage record (struct _BusMessage of the msg/message.c revision).
The byte buffer `data` replaces the malloc'ed pointer; `data_max` mirrors the
allocated size and is kept equal to `data.length` by the operations. -/
structure BusMessage where
  src : Int := 0
  dst : Int := 0
  code : Nat := 0
  prio : Nat := 0
  data : List Nat := []
  data_max : Nat := 0
  data_off : Nat := 0
  data_pos : Nat := 0
  data_pos_off : Nat := 0
  data_end : Nat := 0
  data_end_off : Nat := 0
  hdr_len : Nat := 0
  frames : Nat := 0
  deriving DecidableEq, Repr, Inhabited

/-- MSG_MAXHDR from message.h. -/
def MSG_MAXHDR : Nat := 3

/-- msg_alloc: calloc'ed record, zeroed buffer of maxlen+8 bytes whose first
byte holds the reference count 1, cursors at MSG_MAXHDR, prio 1. -/
def msg_alloc (maxlen : Nat) : BusMessage :=
  let ml := maxlen + 8
  { data := setByte (List.replicate ml 0) 0 1
    data_max := ml
    data_off := MSG_MAXHDR
    data_end := MSG_MAXHDR
    prio := 1 }

/-- msg_resize: returns false if data_max is 0 or already at least maxlen
(without touching the buffer); otherwise grows the buffer, zero-filling the
new bytes.  realloc is modelled as always succeeding. -/
def msg_resize (msg : BusMessage) (maxlen : Nat) : Bool × BusMessage :=
  if msg.data_max = 0 then (false, msg)
  else if maxlen ≤ msg.data_max then (false, msg)
  else (true, { msg with
                  data := msg.data ++ List.replicate (maxlen - msg.data_max) 0
                  data_max := maxlen })

/-- msg_length: length of the message content in bytes. -/
def msg_length (msg : BusMessage) : Nat := msg.data_end - msg.data_off

/-- msg_bits: length of the complete message in bits. -/
def msg_bits (msg : BusMessage) : Nat :=
  (msg.data_end - msg.data_off + msg.hdr_len) * 8 + (8 - msg.data_end_off)

/-- msg_sent_bits: length of the already-extracted part in bits. -/
def msg_sent_bits (msg : BusMessage) : Nat :=
  (msg.data_pos - msg.data_off + msg.hdr_len) * 8 + (8 - msg.data_pos_off)

/-- msg_read_header: decode the wire-form header at data_off into the
src/dst/code fields, record hdr_len and advance data_off.  No-op when the
header is already decoded (hdr_len > 0) or the buffer is empty. -/
def msg_read_header (msg : BusMessage) : BusMessage :=
  if msg.hdr_len > 0 then msg
  else
    let buf := msg.data_off
    let ebuf := msg.data_end
    if buf ≥ ebuf then msg
    else
      let b0 := byteAt msg.data buf
      if b0 &&& 0x80 ≠ 0 then
        -- 1 D D *
        let msg := { msg with dst := toInt8 ((b0 >>> 5) ||| 0xFC) }
        if b0 &&& 0x10 ≠ 0 then
          -- 1 D D 1 S S C C
          { msg with src := toInt8 ((b0 >>> 2) ||| 0xFC), code := b0 &&& 0x03
                     hdr_len := 1, data_off := buf + 1 }
        else if buf + 1 > ebuf then { msg with dst := 0 }
        else
          -- 1 D D 0 S S S S | S S S C C C C C
          -- msg->src = *buf++ << 3 truncates into int8_t (mod 256); the
          -- subsequent |= has both operands below 128 since bit 4 of b0 is 0
          let b1 := byteAt msg.data (buf + 1)
          { msg with src := toInt8 (((b0 <<< 3) % 256) ||| (b1 >>> 5))
                     code := b1 &&& 0x1F, hdr_len := 2, data_off := buf + 2 }
      else
        if buf + 1 ≥ ebuf then msg
        else
          -- 0 D D D D D D D | *
          let msg := { msg with dst := toInt8 b0 }
          let b1 := byteAt msg.data (buf + 1)
          if b1 &&& 0x80 ≠ 0 then
            -- 0 D D D D D D D | 1 S S C C C C C
            { msg with src := toInt8 ((b1 >>> 5) ||| 0xFC), code := b1 &&& 0x1F
                       hdr_len := 2, data_off := buf + 2 }
          else if buf + 3 > ebuf then { msg with dst := 0 }
          else
            -- 0 D D D D D D D | 0 S S S S S S S | CC
            { msg with src := toInt8 b1, code := byteAt msg.data (buf + 2)
                       hdr_len := 3, data_off := buf + 3 }

/-- msg_add_header: serialize src/dst/code into the bytes just before
data_off (written backwards) and record hdr_len.  `x % 4` mirrors the C
`x & 0x03` on a (possibly negative) int, `% 256` the u_int8_t stores. -/
def msg_add_header (msg : BusMessage) : BusMessage :=
  let off := msg.data_off
  if msg.dst < 0 then
    if msg.src < 0 then
      -- 1 D D 1 S S C C
      let b := 0x80 ||| ((msg.dst % 4).toNat <<< 5) ||| 0x10 |||
               ((msg.src % 4).toNat <<< 2) ||| (msg.code &&& 0x03)
      { msg with data := setByte msg.data (off - 1) b, hdr_len := 1 }
    else
      -- 1 D D 0 S S S S | S S S C C C C C
      let m := toU8 msg.src
      let bLow := ((m <<< 5) ||| (msg.code &&& 0x1F)) % 256
      let bHigh := 0x80 ||| ((msg.dst % 4).toNat <<< 5) ||| (m >>> 3)
      { msg with data := setByte (setByte msg.data (off - 1) bLow) (off - 2) bHigh
                 hdr_len := 2 }
  else
    if msg.src < 0 then
      -- 0 D D D D D D D | 1 S S C C C C C
      let bLow := 0x80 ||| ((msg.src % 4).toNat <<< 5) ||| (msg.code &&& 0x1F)
      { msg with data := setByte (setByte msg.data (off - 1) bLow) (off - 2) (toU8 msg.dst)
                 hdr_len := 2 }
    else
      -- 0 D D D D D D D | 0 S S S S S S S | CC
      { msg with data := setByte (setByte (setByte msg.data
                           (off - 1) (msg.code % 256))
                           (off - 2) (toU8 msg.src))
                           (off - 3) (toU8 msg.dst)
                 hdr_len := 3 }

/-- msg_start_extract: serialize the header and reset the read cursor to the
start of the header. -/
def msg_start_extract (msg : BusMessage) : BusMessage :=
  let msg := msg_add_header msg
  { msg with data_pos := msg.data_off - msg.hdr_len, data_pos_off := 8 }

/-- msg_extract_more: are there unread bits left? -/
def msg_extract_more (msg : BusMessage) : Bool :=
  if msg.data_pos < msg.data_end then true
  else if msg.data_pos_off > msg.data_end_off then true
  else false

/-- The while-loop of msg_extract_chunk.  State: current byte index `buf`,
remaining unread bits `bits` of that byte (its low bits), accumulator `acc`
and bits still to read `fb`.  The fuel dominates the iteration count whenever
it is at least fb+1.  All intermediate values stay below 2^16 when the
initial fb is at most 16 (the function's assert'ed precondition), so the
u_int16_t truncation of the C accumulator is omitted here. -/
def extractChunkLoop (l : List Nat) : Nat → Nat → Nat → Nat → Nat → Nat × Nat × Nat
  | 0, buf, bits, acc, _ => (buf, bits, acc)
  | fuel + 1, buf, bits, acc, fb =>
    if fb = 0 then (buf, bits, acc)
    else if bits = 8 then
      if fb < 8 then (buf, 8 - fb, acc ||| (byteAt l buf >>> (8 - fb)))
      else extractChunkLoop l fuel (buf + 1) 8 (acc ||| (byteAt l buf <<< (fb - 8))) (fb - 8)
    else if fb ≤ bits then
      let acc' := acc ||| ((byteAt l buf &&& ((1 <<< bits) - 1)) >>> (bits - fb))
      if bits - fb = 0 then (buf + 1, 8, acc') else (buf, bits - fb, acc')
    else
      extractChunkLoop l fuel (buf + 1) 8
        (acc ||| ((byteAt l buf &&& ((1 <<< bits) - 1)) <<< (fb - bits))) (fb - bits)

/-- msg_extract_chunk: pull frame_bits bits from the read cursor.  When fewer
bits remain, the C tail pads the value; the u_int16_t stores of that tail are
modelled with % 65536.  The u16 difference x_bits is nonnegative in the
modelled executions (assert(x_bits > 0)), so Nat subtraction is faithful. -/
def msg_extract_chunk (msg : BusMessage) (frame_bits : Nat) : Nat × BusMessage :=
  let x_bits := ((msg.data_end <<< 3) - msg.data_end_off) -
                ((msg.data_pos <<< 3) - msg.data_pos_off)
  let fb := if x_bits < frame_bits then x_bits else frame_bits
  let x := if x_bits < frame_bits then frame_bits - x_bits else 0
  let r := extractChunkLoop msg.data (fb + 1) msg.data_pos msg.data_pos_off 0 fb
  let buf := r.1
  let bits := r.2.1
  let data := r.2.2
  let data :=
    if x ≠ 0 then
      if 8 ≤ x then ((data <<< (x - 8)) ||| (1 <<< frame_bits)) % 65536
      else (data <<< x) % 65536
    else data
  (data, { msg with data_pos := buf, data_pos_off := bits })

/-- msg_align: discard trailing partial bits. -/
def msg_align (msg : BusMessage) : BusMessage := { msg with data_end_off := 8 }

/-- msg_start_add: reset the buffer for receiving. -/
def msg_start_add (msg : BusMessage) : BusMessage :=
  { msg with data_off := MSG_MAXHDR, data_end := MSG_MAXHDR, hdr_len := 0
             data_end_off := 8 }

/-- The while-loop of msg_add_chunk; the `% 256` model the two u_int8_t
stores that the C code leaves unmasked.  Fuel as in extractChunkLoop. -/
def addChunkLoop (data : Nat) : Nat → List Nat → Nat → Nat → Nat → List Nat × Nat × Nat
  | 0, l, buf, bits, _ => (l, buf, bits)
  | fuel + 1, l, buf, bits, frame_bits =>
    if frame_bits = 0 then (l, buf, bits)
    else if bits = 8 then
      if frame_bits < 8 then
        (setByte l buf ((data <<< (8 - frame_bits)) % 256), buf, 8 - frame_bits)
      else
        addChunkLoop data fuel (setByte l buf ((data >>> (frame_bits - 8)) % 256))
          (buf + 1) 8 (frame_bits - 8)
    else if frame_bits < bits then
      (setByte l buf (byteAt l buf ||| ((data <<< (bits - frame_bits)) &&& ((1 <<< bits) - 1))),
       buf, bits - frame_bits)
    else
      addChunkLoop data fuel
        (setByte l buf (byteAt l buf ||| ((data >>> (frame_bits - bits)) &&& ((1 <<< bits) - 1))))
        (buf + 1) 8 (frame_bits - bits)

/-- msg_add_chunk: grow the buffer (via msg_resize, whose result gates the
insertion) and insert frame_bits bits of data at the write cursor. -/
def msg_add_chunk (msg : BusMessage) (data frame_bits : Nat) : Bool × BusMessage :=
  match msg_resize msg (msg.data_end + 3) with
  | (false, msg) => (false, msg)
  | (true, msg) =>
    let r := addChunkLoop data (frame_bits + 1) msg.data msg.data_end msg.data_end_off frame_bits
    (true, { msg with data := r.1, data_end := r.2.1, data_end_off := r.2.2
                      frames := msg.frames + 1 })

/-- Byte-wise copy helper (memcpy of n bytes). -/
def copyBytes (src : List Nat) (sOff : Nat) : List Nat → Nat → Nat → List Nat
  | dst, _, 0 => dst
  | dst, dOff, n + 1 =>
    copyBytes src (sOff + 1) (setByte dst dOff (byteAt src sOff)) (dOff + 1) n

/-- msg_add_in: copy `bits` bits of encoded wire-form data from orig (starting
at its header) to msg's content region.  The insertion is gated on
msg_resize like msg_add_chunk. -/
def msg_add_in (msg orig : BusMessage) (bits : Nat) : Bool × BusMessage :=
  if bits = 0 then (true, msg)
  else
    let bb := bits &&& 7
    let bits := bits >>> 3
    match msg_resize msg (bits + 3) with
    | (false, msg) => (false, msg)
    | (true, msg) =>
      let n := bits + (if bb ≠ 0 then 1 else 0)
      let data := copyBytes orig.data (orig.data_off - orig.hdr_len) msg.data msg.data_off n
      (true, { msg with data, data_end := msg.data_off + bits, data_end_off := 8 - bb })

/-- msg_start_send: reset the buffer for byte-oriented filling. -/
def msg_start_send (msg : BusMessage) : BusMessage :=
  { msg with hdr_len := 0, data_end := msg.data_off, data_end_off := 8 }

/-- Write a list of bytes at an offset (memcpy). -/
def writeList (l : List Nat) (off : Nat) : List Nat → List Nat
  | [] => l
  | b :: bs => writeList (setByte l off b) (off + 1) bs

/-- msg_add_data: append whole bytes, closing a partial byte first. -/
def msg_add_data (msg : BusMessage) (bytes : List Nat) : BusMessage :=
  let msg := if msg.data_end_off ≠ 8 then
               { msg with data_end := msg.data_end + 1, data_end_off := 8 }
             else msg
  { msg with data := writeList msg.data msg.data_end bytes
             data_end := msg.data_end + bytes.length }

/-! The serial framer (src/moatbus/serial.c). -/

/-- Modelled from the spec: one shift step of the byte-wise CRC-16 used by
the serial line.  The two-argument crc16_update the framer calls is declared
(moatbus/crc.h, c/include/moat/crc.h) but its body is not under src/; the
spec describes it as the classic table-driven CRC-16, modelled here with the
standard reflected polynomial 0xA001. -/
def crc16_step (crc : Nat) : Nat :=
  if crc &&& 1 = 1 then (crc >>> 1) ^^^ 0xA001 else crc >>> 1

/-- Modelled from the spec: table entry = eight shift steps applied to the
index byte (what the table-driven update folds per byte). -/
def crc16_tbl (b : Nat) : Nat :=
  crc16_step (crc16_step (crc16_step (crc16_step
    (crc16_step (crc16_step (crc16_step (crc16_step b)))))))

/-- Modelled from the spec: classic one-table-lookup-per-byte CRC-16 update. -/
def crc16_update (crc data : Nat) : Nat :=
  (crc >>> 8) ^^^ crc16_tbl ((crc ^^^ data) &&& 0xFF)

/-- CRC-16 of a byte list from initial register 0 (what the framer's crc_in
accumulates over a frame's payload bytes). -/
def crc16_of (bytes : List Nat) : Nat := bytes.foldl crc16_update 0

/-- enum SERSTATE, kept as the numeric values of the C enum. -/
def S_IDLE : Nat := 0
def S_INIT : Nat := 1
def S_LEN : Nat := 2
def S_LEN2 : Nat := 3
def S_DATA : Nat := 4
def S_CRC1 : Nat := 5
def S_CRC2 : Nat := 6
def S_DONE : Nat := 7
def S_ACK : Nat := 8

/-- struct _SerBus.  The chain m_in_first → … → m_in of receive buffers is
represented as the list `m_done` of completed messages (everything strictly
before m_in in the chain) plus the current buffer `m_in`; the output queue
m_out/m_out_last as the list `m_out` (head = first). -/
structure SerBus where
  m_done : List BusMessage := []
  m_in : BusMessage := msg_alloc 20
  crc_in : Nat := 0
  len_in : Nat := 0
  m_out : List BusMessage := []
  crc_out : Nat := 0
  s_in : Nat := S_IDLE
  s_out : Nat := S_IDLE
  err_overflow : Nat := 0
  err_lost : Nat := 0
  err_spurious : Nat := 0
  err_crc : Nat := 0
  idle : Nat := 0
  ack_out : Nat := 0
  ack_in : Nat := 0
  deriving DecidableEq, Repr, Inhabited

/-- sb_clear_in: reset the input CRC and state machine, restart the current
receive buffer. -/
def sb_clear_in (sb : SerBus) : SerBus :=
  { sb with crc_in := 0, s_in := S_IDLE, m_in := msg_start_add sb.m_in }

/-- sb_alloc_in: append a fresh buffer to the receive chain (the old m_in
becomes the last completed message) and clear the input machine. -/
def sb_alloc_in (sb : SerBus) : SerBus :=
  sb_clear_in { sb with m_done := sb.m_done ++ [sb.m_in], m_in := msg_alloc 20 }

/-- sb_alloc: calloc'ed framer with one fresh receive buffer. -/
def sb_alloc : SerBus := sb_clear_in {}

/-- sb_send: append to the output queue; kick the output machine if idle. -/
def sb_send (sb : SerBus) (msg : BusMessage) : SerBus :=
  let sb := { sb with m_out := sb.m_out ++ [msg] }
  if sb.s_out = S_IDLE then { sb with s_out := S_INIT } else sb

/-- sb_byte_in: feed one received byte (a u_int8_t) into the input state
machine. -/
def sb_byte_in (sb : SerBus) (c : Nat) : SerBus :=
  let sb := { sb with idle := 0 }
  if sb.s_in = S_IDLE then
    if c = 0x06 then { sb with ack_in := sb.ack_in + 1 }
    else if 0 < c ∧ c ≤ 0x04 then { sb with s_in := S_LEN }
    else { sb with err_spurious := sb.err_spurious + 1 }
  else if sb.s_in = S_INIT then { sb with s_in := S_LEN }
  else if sb.s_in = S_LEN then
    if c &&& 0x80 ≠ 0 then { sb with len_in := (c &&& 0x7F) <<< 8, s_in := S_LEN2 }
    else { sb with len_in := c, s_in := S_DATA }
  else if sb.s_in = S_LEN2 then { sb with len_in := sb.len_in ||| c, s_in := S_DATA }
  else if sb.s_in = S_DATA then
    let sb := { sb with m_in := (msg_add_chunk sb.m_in c 8).2
                        crc_in := crc16_update sb.crc_in c }
    -- u_int16_t pre-decrement: 0 wraps to 65535
    let len' := if sb.len_in = 0 then 65535 else sb.len_in - 1
    let sb := { sb with len_in := len' }
    if len' = 0 then { sb with s_in := S_CRC1 } else sb
  else if sb.s_in = S_CRC1 then
    { sb with crc_in := sb.crc_in ^^^ (c <<< 8), s_in := S_CRC2 }
  else if sb.s_in = S_CRC2 then
    let sb := { sb with crc_in := sb.crc_in ^^^ c }
    let sb := if sb.crc_in ≠ 0 then { sb with err_crc := sb.err_crc + 1 }
              else sb_alloc_in sb
    sb_clear_in sb
  else sb  -- S_DONE, S_ACK: should not happen

/-- sb_byte_out: next byte to send, or -1.  Returns the int16_t result and
the updated framer. -/
def sb_byte_out (sb : SerBus) : Int × SerBus :=
  if sb.s_out = S_IDLE then (-1, sb)
  else if sb.s_out = S_ACK then
    let a := sb.ack_out - 1
    let sb := { sb with ack_out := a }
    let sb := if a = 0 then
                { sb with s_out := if sb.m_out ≠ [] then S_INIT else S_IDLE }
              else sb
    (0x06, sb)
  else if sb.s_out = S_INIT then
    match sb.m_out with
    | [] => (0x00, sb)  -- assert(m_out != NULL): not reached
    | m :: rest =>
      let m := msg_start_extract m
      ((((m.prio &&& 0x03) + 1 : Nat) : Int),
       { sb with m_out := m :: rest, s_out := S_LEN, crc_out := 0 })
  else if sb.s_out = S_LEN then
    match sb.m_out with
    | [] => (0x00, sb)
    | m :: _ =>
      let len := msg_bits m >>> 3
      if 0x80 ≤ len then (((0x80 ||| (len >>> 7) : Nat) : Int), { sb with s_out := S_LEN2 })
      else ((len : Int), { sb with s_out := S_DATA })
  else if sb.s_out = S_LEN2 then
    match sb.m_out with
    | [] => (0x00, sb)
    | m :: _ =>
      let len := msg_bits m >>> 3
      (((len &&& 0xFF : Nat) : Int), { sb with s_out := S_DATA })
  else if sb.s_out = S_DATA then
    match sb.m_out with
    | [] => (0x00, sb)
    | m :: rest =>
      let r := msg_extract_chunk m 8
      let c := r.1 % 256  -- u_int8_t c
      let m := r.2
      let sb := { sb with m_out := m :: rest, crc_out := crc16_update sb.crc_out c }
      let sb := if ¬ msg_extract_more m then { sb with s_out := S_CRC1 } else sb
      ((c : Int), sb)
  else if sb.s_out = S_CRC1 then
    (((sb.crc_out >>> 8 : Nat) : Int), { sb with s_out := S_CRC2 })
  else if sb.s_out = S_CRC2 then
    let c := sb.crc_out &&& 0xFF
    let rest := sb.m_out.tail  -- pop + msg_free of the head
    let sb := { sb with m_out := rest }
    let sb := { sb with s_out := if sb.ack_out ≠ 0 then S_ACK
                                 else if rest = [] then S_IDLE else S_INIT }
    ((c : Nat), sb)
  else (0x00, sb)  -- S_DONE: should not happen

/-- sb_recv: a completed message, if one is ready (m_in ≠ m_in_first, i.e.
the done list is nonempty); decodes its header and schedules an ACK. -/
def sb_recv (sb : SerBus) : Option BusMessage × SerBus :=
  match sb.m_done with
  | [] => (none, sb)
  | m :: rest =>
    let sb := { sb with m_done := rest, ack_out := sb.ack_out + 1 }
    let sb := if sb.s_out = S_IDLE then { sb with s_out := S_ACK } else sb
    (some (msg_read_header m), sb)

/-- Feed a byte list into the input machine (repeated sb_byte_in). -/
def sb_feed (sb : SerBus) (bytes : List Nat) : SerBus := bytes.foldl sb_byte_in sb

/-- Drive sb_byte_out until it reports -1, collecting the emitted bytes
(each truncated to the u_int8_t the UART would transmit); fuel bounds the
iteration count. -/
def sb_drain : Nat → SerBus → List Nat × SerBus
  | 0, sb => ([], sb)
  | fuel + 1, sb =>
    let r := sb_byte_out sb
    if r.1 < 0 then ([], r.2)
    else
      let rest := sb_drain fuel r.2
      (r.1.toNat % 256 :: rest.1, rest.2)

/-! The bus handler (src/moatbus/handler.c).  Only the parts the claims are
about are embedded: the send queues, retry/backoff bookkeeping, the writer's
chunk generator and the collision routine, together with everything those
functions call.  The wire/timer callbacks are recorded as events; the two
external inputs a run can depend on (the process() callback's verdict and
the random floating-point backoff growth of h_error) are supplied by an
environment record. -/

namespace Handler

/-- enum _S (numeric values as in handler.c; the code compares them with
< and ≥, so they stay Nats). -/
def S_ERROR : Nat := 0
def S_WAIT_IDLE : Nat := 1
def S_IDLE : Nat := 2
def S_READ : Nat := 3
def S_READ_ACK : Nat := 4
def S_READ_ACQUIRE : Nat := 5
def S_READ_CRC : Nat := 6
def S_WRITE : Nat := 10
def S_WRITE_ACQUIRE : Nat := 11
def S_WRITE_ACK : Nat := 12
def S_WRITE_END : Nat := 13
def S_WRITE_CRC : Nat := 14

/-- enum _W. -/
def W_MORE : Nat := 0
def W_CRC : Nat := 1
def W_END : Nat := 2
def W_LAST : Nat := 3
def W_FINAL : Nat := 4

/-- enum HDL_ERR (handler.h). -/
def ERR_NOTHING : Int := 1
def ERR_COLLISION : Int := -2
def ERR_HOLDTIME : Int := -11
def ERR_ACQUIRE : Int := -12
def ERR_CRC : Int := -13
def ERR_BAD_COLLISION : Int := -14
def ERR_NO_CHANGE : Int := -16
def ERR_FATAL : Int := -20
def ERR_FLAP : Int := -21
def ERR_ACQUIRE_FATAL : Int := -22
def ERR_UNUSED : Int := -31
def ERR_UNHANDLED : Int := -32
def ERR_CANNOT : Int := -33

/-- Timing constants (handler.c / handler.h). -/
def T_OFF : Nat := 0
def T_BREAK : Nat := 1
def T_SETTLE : Nat := 2
def T_BACKOFF : Nat := 2
def T_ZERO : Nat := 5
def T_ERROR : Nat := 10

/-- enum HDL_RES.  The enum definition is not under src/ (only its uses
are); the handler only compares these values for equality and passes them
through, so an opaque-value inductive is a faithful model. -/
inductive HRes where
  | success | missing | error | fatal
  deriving DecidableEq, Repr

/-- Callback events the handler emits (the bodies of the callbacks are the
host's business; the handler's behaviour only records them, except for
process(), whose verdict is supplied by Env). -/
inductive Ev where
  | setWire (bits : Nat)
  | setTimeout (val : Nat)
  | transmittedEv (msg : BusMessage) (res : HRes)
  | reportErrorEv (err : Int)
  | processEv (msg : BusMessage) (accepted : Bool)
  | debugEv
  deriving DecidableEq, Repr

/-- External inputs: the process() callback's verdict, and the new backoff
value of h_error's `backoff *= 1.5+random()` / `backoff *= 1.2` lines (calls
to random() and double arithmetic truncated to u_int16_t, so an oracle of
the old value). -/
structure Env where
  process : BusMessage → Bool := fun _ => true
  errBackoff : Nat → Nat := id

/-- struct _Handler.  u_int8_t/u_int16_t fields are Nats (stores that can
exceed the field width are reduced explicitly); the two message queues are
lists (head = q_first); crc_table is not a field, h_crc recomputes the
entry (the table built by h_gen_crc holds _bytecrc_r(b, POLY, WIRES) at
index b). -/
structure HState where
  WIRES : Nat := 0
  MAX : Nat := 0
  BITS : Nat := 0
  LEN : Nat := 0
  LEN_CRC : Nat := 0
  N_END : Nat := 0
  VAL_END : Nat := 0
  VAL_MAX : Nat := 0
  last : Nat := 0
  current : Nat := 0
  intended : Nat := 0
  settle : Bool := false
  q : List BusMessage := []
  q_prio : List BusMessage := []
  sending : Option BusMessage := none
  msg_in : Option BusMessage := none
  val : Nat := 0
  nval : Nat := 0
  want_prio : Nat := 0
  current_prio : Nat := 0
  backoff : Nat := 0
  no_backoff : Bool := false
  tries : Nat := 0
  last_zero : Nat := 0
  flapping : Nat := 0
  state : Nat := 0
  write_state : Nat := 0
  ack_mask : Nat := 0
  nack_mask : Nat := 0
  ack_masks : Nat := 0
  crc : Nat := 0
  cur_chunk : List Nat := List.replicate 7 0
  cur_pos : Nat := 0
  cur_len : Nat := 0
  events : List Ev := []
  deriving DecidableEq, Repr, Inhabited

/-- Record a callback invocation (newest first). -/
def emit (h : HState) (e : Ev) : HState := { h with events := e :: h.events }

/-- Fuel for the statically bounded h_set_state → h_send_next →
h_start_writer call chain (its dynamic depth never exceeds 3). -/
def FUEL : Nat := 8

def POLY : Nat := 0x583

/-- _bytecrc_r: depth shift steps of the wire CRC. -/
def _bytecrc_r (crc poly : Nat) : Nat → Nat
  | 0 => crc
  | depth + 1 =>
    _bytecrc_r (if crc &&& 1 = 1 then (crc >>> 1) ^^^ poly else crc >>> 1) poly depth

/-- h_crc: fold one wire symbol into the running CRC
(crc_table[b] = _bytecrc_r b POLY WIRES). -/
def h_crc (h : HState) (bits : Nat) : HState :=
  { h with crc := (h.crc >>> h.WIRES) ^^^
                  _bytecrc_r ((bits ^^^ h.crc ^^^ h.current_prio) &&& h.MAX) POLY h.WIRES }

/-- The loop of powi (moatbus/util.c), u_int16_t arithmetic; fuel dominates
the number of halvings of y. -/
def powiLoop (res xx : Nat) : Nat → Nat → Nat
  | 0, _ => res
  | fuel + 1, y =>
    let res := if y &&& 1 = 1 then (res * xx) % 65536 else res
    let y := y >>> 1
    if y = 0 then res else powiLoop res ((xx * xx) % 65536) fuel y

/-- powi: fast small-integer powers. -/
def powi (x y : Nat) : Nat := powiLoop 1 x 17 y

/-- h_set_wire. -/
def h_set_wire (h : HState) (bits : Nat) : HState := emit h (Ev.setWire bits)

/-- h_set_timeout, including the last_zero bookkeeping (u_int8_t sums wrap
mod 256). -/
def h_set_timeout (h : HState) (val : Nat) : HState :=
  if val ≤ T_BREAK then emit h (Ev.setTimeout val)
  else
    let val := if val = T_ZERO ∧ h.last_zero ≠ 0 then
                 (if T_ZERO ≤ h.last_zero then 1 else T_ZERO - h.last_zero + 1)
               else val
    let h := if h.last_zero ≠ 0 ∧ h.last_zero - 1 < T_ZERO then
               { h with last_zero := (h.last_zero + val) % 256 }
             else h
    emit h (Ev.setTimeout val)

/-- h_transmitted: report the result, reset tries, decay the backoff
(halved if above twice the minimum, else floored at the minimum). -/
def h_transmitted (h : HState) (msg : BusMessage) (res : HRes) : HState :=
  let h := emit h (Ev.transmittedEv msg res)
  { h with tries := 0
           backoff := if T_BACKOFF * 2 < h.backoff then h.backoff / 2 else T_BACKOFF }

/-- h_clear_sending. -/
def h_clear_sending (h : HState) : Option BusMessage × HState :=
  (h.sending, { h with sending := none, want_prio := 0 })

/-- h_reset. -/
def h_reset (h : HState) : HState :=
  { h with intended := 0, cur_pos := 0, cur_len := 0, ack_mask := 0
           msg_in := some (msg_start_add (h.msg_in.getD (msg_alloc 6)))
           val := 0, nval := 0, settle := false }

/-- h_set_ack_mask. -/
def h_set_ack_mask (h : HState) : HState :=
  let bits := if h.settle then h.last else h.current
  let am := if bits = 1 then 2 else 1
  let nm := if h.WIRES = 2 then (if bits ≠ 0 then 0 else 2)
            else if bits = 3 ∨ bits = 1 then 4 else 2
  { h with ack_mask := am, nack_mask := nm, ack_masks := am ||| nm }

/-- The three straight-line updates at the head of h_set_state (stop the
wires when leaving a write state, derive the ACK masks when entering an ACK
state, clear no_backoff when entering an acquire state).  None of them
touches h.state, so the branch guards below read the same state the C code
does. -/
def h_set_state_pre (h : HState) (st : Nat) : HState :=
  let h := if st < S_WRITE ∧ S_WRITE ≤ h.state then h_set_wire h 0 else h
  let h := if st = S_READ_ACK ∨ st = S_WRITE_ACK then h_set_ack_mask h else h
  if st = S_READ_ACQUIRE ∨ st = S_WRITE_ACQUIRE then { h with no_backoff := false }
  else h

/-- The queue pop at the head of h_send_next. -/
def h_send_next_pop (h : HState) : HState :=
  if h.sending = none then
    match h.q_prio with
    | m :: rest => { h with sending := some m, q_prio := rest }
    | [] =>
      match h.q with
      | m :: rest => { h with sending := some m, q := rest }
      | [] => h
  else h

/-- The want_prio derivation of h_send_next (runs when want_prio is 0):
prio beyond the wire count is folded back, costing the no_backoff credit. -/
def h_send_next_prio (h : HState) (msg : BusMessage) : HState :=
  if h.want_prio = 0 then
    let prio := msg.prio
    if h.WIRES ≤ prio then
      let prio := prio - h.WIRES
      let h := if h.no_backoff then
                 { h with no_backoff := false, backoff := T_BACKOFF + 2 }
               else h
      let prio := if h.WIRES ≤ prio then h.WIRES - 1 else prio
      { h with want_prio := 1 <<< prio }
    else { h with want_prio := 1 <<< prio }
  else h

mutual

/-- h_set_state.  The recursive h_send_next call only happens when leaving
an active state for ERROR/WAIT_IDLE; fuel bounds the statically acyclic
call chain. -/
def h_set_state : Nat → HState → Nat → HState
  | 0, h, _ => h
  | fuel + 1, h, st =>
    if st = h.state then h
    else
      let h := h_set_state_pre h st
      if st = S_IDLE then
        let h := { h with state := st, settle := true }
        h_set_timeout h
          ((T_BREAK + 1 + (if h.no_backoff ∧ h.sending.isSome then 0 else h.backoff)) % 256)
      else if st < S_IDLE ∧ S_IDLE < h.state then
        let h := { h with state := st }
        let h := h_reset h
        let h := h_send_next fuel h
        if h.current ≠ 0 then h_set_timeout h T_OFF
        else if st = S_ERROR then h_set_timeout h T_ERROR
        else h_set_timeout h T_ZERO
      else { h with state := st }

/-- h_send_next: pop the priority queue, then the normal queue, into
`sending`; derive want_prio from the message's prio field; start writing
if the bus is idle and settled. -/
def h_send_next : Nat → HState → HState
  | 0, h => h
  | fuel + 1, h =>
    let h := h_send_next_pop h
    match h.sending with
    | none => h
    | some msg =>
      let h := h_send_next_prio h msg
      if h.state = S_IDLE ∧ ¬h.settle then h_start_writer fuel h else h

/-- h_start_writer. -/
def h_start_writer : Nat → HState → HState
  | 0, h => h
  | fuel + 1, h =>
    let h := { h with cur_pos := 0, cur_len := 0, settle := true
                      sending := h.sending.map msg_start_extract }
    let h := h_set_wire h h.want_prio
    let h := h_set_state fuel h S_WRITE_ACQUIRE
    { h with write_state := W_MORE }

end

/-- hdl_send: append to the priority queue when prio is 0, else the normal
queue, then try to send. -/
def hdl_send (h : HState) (msg : BusMessage) : HState :=
  let h := if msg.prio = 0 then { h with q_prio := h.q_prio ++ [msg] }
           else { h with q := h.q ++ [msg] }
  h_send_next FUEL h

/-- h_retry: bounded retry.  A fresh failure initializes tries from the
result kind; at 1 the result is reported as terminal; otherwise the message
is pushed back at the head of the normal queue h->q_first and sending is
re-attempted. -/
def h_retry (h : HState) (msg : BusMessage) (res : HRes) : HState :=
  let h := emit h Ev.debugEv
  let r : Nat := if res = HRes.missing then 2 else if res = HRes.error then 4 else 6
  let h := if h.tries = 0 then { h with tries := r } else h
  if h.tries = 1 then h_transmitted h msg res
  else
    let h := { h with tries := h.tries - 1, q := msg :: h.q }
    h_send_next FUEL h

/-- h_error. -/
def h_error (env : Env) (h : HState) (typ : Int) : HState :=
  if h.state = S_ERROR then h
  else if typ = ERR_HOLDTIME ∧ h.current = 0 then
    if h.state < S_IDLE then h_set_state FUEL h S_IDLE
    else h_set_state FUEL h S_WAIT_IDLE
  else
    let h := if typ < 0 then { h with backoff := env.errBackoff h.backoff } else h
    let h := emit h Ev.debugEv
    let h := emit h (Ev.reportErrorEv typ)
    let h := h_reset h
    if typ ≤ ERR_FATAL ∧ h.sending.isSome then
      let r := h_clear_sending h
      let h := h_transmitted r.2 (r.1.getD default) HRes.fatal
      h_set_state FUEL h S_WAIT_IDLE
    else if 0 < typ ∧ typ < ERR_FATAL then h_set_state FUEL h S_ERROR
    else h_set_state FUEL h S_WAIT_IDLE

/-- h_read_crc. -/
def h_read_crc (h : HState) : HState :=
  h_set_state FUEL { h with nval := 0, val := 0 } S_READ_CRC

/-- h_process: decode the header, hand the message to the application. -/
def h_process (env : Env) (h : HState) (msg : BusMessage) : Bool × HState :=
  let msg := msg_read_header msg
  let acc := env.process msg
  (acc, emit h (Ev.processEv msg acc))

/-- h_read_done. -/
def h_read_done (env : Env) (h : HState) (crc_ok : Bool) : HState :=
  let h := { h with no_backoff := false }
  let msg_in := h.msg_in.getD default
  let h := { h with msg_in := none }
  if ¬crc_ok then
    -- msg_free(msg_in)
    let h := emit h (Ev.reportErrorEv ERR_CRC)
    let h := h_set_ack_mask h
    if h.nack_mask ≠ 0 then
      h_set_state FUEL { h with ack_mask := h.nack_mask } S_WRITE_ACK
    else h_set_state FUEL h S_WAIT_IDLE
  else
    let m := msg_align msg_in
    let r := h_process env h m
    if r.1 then h_set_state FUEL r.2 S_WRITE_ACK
    else h_set_state FUEL r.2 S_WAIT_IDLE

/-- h_read_next: fold one observed symbol (u_int16_t val accumulator,
u_int8_t nval counter). -/
def h_read_next (env : Env) (h : HState) (bits : Nat) : HState :=
  let bits := bits ^^^ h.last
  if bits = 0 then h_error env h ERR_NOTHING
  else
    let h := { h with no_backoff := false }
    let h := { h with val := (h.val * h.MAX + bits - 1) % 65536
                      nval := (h.nval + 1) % 256 }
    if h.state = S_READ_CRC then
      if h.nval = h.LEN_CRC then h_read_done env h (decide (h.val = h.crc)) else h
    else
      if h.nval = h.N_END ∧ h.val = h.VAL_END then h_read_crc h
      else if h.nval = h.LEN then
        if h.VAL_MAX + (1 <<< (h.BITS - 8)) ≤ h.val then h_error env h ERR_CRC
        else if h.VAL_MAX ≤ h.val then
          let mi := h.msg_in.map (fun m => (msg_add_chunk m (h.val - h.VAL_MAX) (h.BITS - 8)).2)
          h_read_crc { h with msg_in := mi }
        else
          let mi := h.msg_in.map (fun m => (msg_add_chunk m h.val h.BITS).2)
          { h with msg_in := mi, nval := 0, val := 0 }
      else h

/-- The replay loop of h_write_collision: for n from cur_len-1 down to
cur_pos+1, val = val*MAX + cur_chunk[n]-1 (u_int16_t), counting nval.
The chunk entries are at least 1 in every reachable state, so the Nat
subtraction is faithful. -/
def replayLoop (chunk : List Nat) (mx cp : Nat) : Nat → Nat → Nat → Nat × Nat
  | 0, val, nv => (val, nv)
  | n + 1, val, nv =>
    if cp + 1 < n + 1 then
      replayLoop chunk mx cp n ((val * mx + chunk.getD n 0 - 1) % 65536) ((nv + 1) % 256)
    else (val, nv)

/-- h_write_collision: pick the lowest-numbered surviving wire as the new
wanted priority (bits & ~(bits-1): since bits is a u_int8_t, the complement
is taken on the low 8 bits), salvage the already-transmitted bits into the
receive buffer, replay the not-yet-sent symbols of the current chunk into
the val accumulator, switch to reading, and set no_backoff. -/
def h_write_collision (env : Env) (h : HState) (bits : Nat) (settled : Bool) : HState :=
  let h := { h with want_prio := bits &&& ((bits - 1) ^^^ 255) }
  let h := emit h Ev.debugEv
  let sending := h.sending.getD default
  let h :=
    match h.msg_in with
    | some msg =>
      { h with msg_in := some (msg_resize msg ((msg_sent_bits sending >>> 3) + 8)).2 }
    | none =>
      { h with msg_in := some (msg_start_add (msg_alloc ((msg_sent_bits sending >>> 3) + 8))) }
  let off := msg_sent_bits sending - h.BITS
  let h := { h with msg_in := h.msg_in.map (fun m => (msg_add_in m sending off).2) }
  let rv := replayLoop h.cur_chunk h.MAX h.cur_pos h.cur_len 0 0
  let h := { h with val := rv.1, nval := rv.2 }
  let bits := h.current
  let h := h_set_state FUEL h S_READ
  let h := if settled then h_read_next env (h_crc h bits) bits else h
  { h with no_backoff := true }

/-- Fill k entries of the chunk array with value v starting at index i
(u_int8_t stores). -/
def fillRep : List Nat → Nat → Nat → Nat → List Nat
  | chunk, _, 0, _ => chunk
  | chunk, i, k + 1, v => fillRep (setByte chunk i (v % 256)) (i + 1) k v

/-- The base-MAX digit loop of h_gen_chunk: k entries starting at index i,
each val % MAX + 1 (v = val/MAX; p = val - v*MAX), consuming val. -/
def fillDigits (mx : Nat) : List Nat → Nat → Nat → Nat → List Nat
  | chunk, _, 0, _ => chunk
  | chunk, i, k + 1, val =>
    let v := val / mx
    let p := val - v * mx
    fillDigits mx (setByte chunk i ((p + 1) % 256)) (i + 1) k v

/-- h_gen_chunk: generate the next chunk of wire symbols.  Returns false
when the frame (including CRC) is complete.  The common tail (the n == 0
decomposition of val into LEN or LEN_CRC symbols followed by
cur_pos = cur_len = n) is written once per branch via genFinish. -/
def genFinish (h : HState) (n val : Nat) : Bool × HState :=
  let hn :=
    if n = 0 then
      let cp := if h.write_state = W_CRC then h.LEN_CRC else h.LEN
      ({ h with cur_chunk := fillDigits h.MAX h.cur_chunk 0 cp val, cur_pos := cp }, cp)
    else (h, n)
  (true, { hn.1 with cur_pos := hn.2, cur_len := hn.2 })

def h_gen_chunk (env : Env) (h : HState) : Bool × HState :=
  -- assert(h->cur_pos == 0)
  if h.write_state = W_MORE then
    if ¬ msg_extract_more (h.sending.getD default) then
      let h := { h with write_state := W_FINAL }
      let h := { h with cur_chunk := fillRep h.cur_chunk 0 h.N_END h.MAX }
      genFinish h h.N_END 0
    else
      let r := msg_extract_chunk (h.sending.getD default) h.BITS
      let h := { h with sending := h.sending.map (fun _ => r.2) }
      let val := r.1
      let h := if h.VAL_MAX ≤ val then { h with write_state := W_FINAL } else h
      genFinish h 0 val
  else if h.write_state = W_CRC then (false, h)
  else if h.write_state = W_END ∨ h.write_state = W_FINAL then
    let val := h.crc
    let h := { h with write_state := W_CRC }
    let h := h_set_state FUEL h S_WRITE_CRC
    genFinish h 0 val
  else
    -- W_LAST: h_error(ERR_UNUSED), then the decomposition runs on val = 0
    let h := h_error env h ERR_UNUSED
    genFinish h 0 0

/-- h_write_next: take the next symbol of the current chunk (generating a
new chunk first when it is exhausted); intended = last XOR symbol
(u_int8_t store). -/
def h_write_next (env : Env) (h : HState) : Bool × HState :=
  let r := if h.cur_pos = 0 then h_gen_chunk env h else (true, h)
  match r with
  | (false, h) => (false, h_set_state FUEL h S_READ_ACK)
  | (true, h) =>
    let p := h.cur_pos - 1
    let h := { h with cur_pos := p }
    let res := h.cur_chunk.getD p 0
    -- assert((0 < res) && (res <= h->MAX))
    (true, { h with intended := (h.last ^^^ res) % 256 })

/-- hdl_alloc: per-wire-count parameters (LEN/BITS/N_END tables), initial
wire state from the get_wire callback (wire0). -/
def hdl_alloc (wire0 : Nat) (n_wires : Nat) : HState :=
  let lenT : List Nat := [0, 0, 7, 5, 3, 3, 2]
  let bitsT : List Nat := [0, 0, 11, 14, 11, 14, 11]
  let nendT : List Nat := [0, 0, 3, 2, 1, 1, 1]
  let mx := (1 <<< n_wires) - 1
  let len := lenT.getD n_wires 0
  let nend := nendT.getD n_wires 0
  let h : HState :=
    { WIRES := n_wires
      MAX := mx
      LEN := len
      BITS := bitsT.getD n_wires 0
      N_END := nend
      VAL_END := powi mx nend - 1
      VAL_MAX := 1 <<< (bitsT.getD n_wires 0)
      LEN_CRC := if n_wires = 3 then len - 1 else len
      last := wire0
      current := wire0
      last_zero := if wire0 ≠ 0 then (wire0 + 1) % 256 else 0
      settle := false
      backoff := T_BACKOFF
      no_backoff := false
      state := S_WAIT_IDLE }
  let h := h_reset h
  h_set_timeout h T_ZERO

end Handler

/-! Specification-side reference definitions (independent of the embedded
code, used to state the claims). -/

/-- The number of unread bits between the read cursor and the write cursor,
the quantity msg_extract_chunk computes as x_bits. -/
def msg_avail_bits (m : BusMessage) : Nat :=
  ((m.data_end <<< 3) - m.data_end_off) - ((m.data_pos <<< 3) - m.data_pos_off)

/-- Reference reader (fuel-structured on n): the value of the next n unread
bits at byte position buf, of which the low `bits` bits of byte buf are the
not-yet-consumed ones, most significant first, followed by whole bytes. -/
def bitsValF (l : List Nat) : Nat → Nat → Nat → Nat → Nat
  | 0, _, _, _ => 0
  | fuel + 1, buf, bits, n =>
    if n = 0 ∨ bits = 0 then 0
    else if n ≤ bits then (byteAt l buf &&& ((1 <<< bits) - 1)) >>> (bits - n)
    else ((byteAt l buf &&& ((1 <<< bits) - 1)) <<< (n - bits)) |||
         bitsValF l fuel (buf + 1) 8 (n - bits)

/-- The value of the next n unread bits from position (buf, bits). -/
def bitsVal (l : List Nat) (buf bits n : Nat) : Nat := bitsValF l n buf bits n

/-- Harness message for the header round-trip: an empty message with the
standard layout (content starts at MSG_MAXHDR = 3, room for the header
before it) and the given logical header fields. -/
def hdr_msg (src dst : Int) (code : Nat) : BusMessage :=
  { src := src, dst := dst, code := code
    data := [0, 0, 0, 0, 0, 0, 0, 0], data_max := 8, data_off := 3, data_end := 3 }

/-- The receiving side of a header transfer: the same buffer with the read
window starting at the first header byte (as msg_start_extract positions the
sender and the wire reproduces at the receiver), logical fields cleared and
hdr_len 0, decoded by msg_read_header. -/
def hdr_wire_reader (m1 : BusMessage) : BusMessage :=
  msg_read_header { m1 with data_off := MSG_MAXHDR - m1.hdr_len, data_end := MSG_MAXHDR
                            hdr_len := 0, src := 0, dst := 0, code := 0 }

/-! Helper lemmas about the bit-level reference reader and the embedded
extraction loop. -/

theorem byteAt_lt (l : List Nat) (hl : ∀ b ∈ l, b < 256) (i : Nat) : byteAt l i < 256 := by
  unfold byteAt
  by_cases hi : i < l.length
  · have h1 : l.getD i 0 = l.get ⟨i, hi⟩ := by
      simp [List.getD_eq_getElem?_getD, List.getElem?_eq_getElem hi]
    rw [h1]
    exact hl _ (l.get_mem i hi)
  · have h1 : l.getD i 0 = 0 := by
      simp [List.getD_eq_getElem?_getD, List.getElem?_eq_none (le_of_not_lt hi)]
    omega

theorem bitsValF_fuel (l : List Nat) :
    ∀ fuel buf bits n, n ≤ fuel → bitsValF l fuel buf bits n = bitsVal l buf bits n := by
  intro fuel
  induction fuel using Nat.strong_induction_on with
  | _ fuel ih =>
    intro buf bits n hn
    cases fuel with
    | zero =>
      have hz : n = 0 := by omega
      subst hz; rfl
    | succ f =>
      cases n with
      | zero => simp [bitsValF, bitsVal]
      | succ m =>
        show bitsValF l (f + 1) buf bits (m + 1) = bitsValF l (m + 1) buf bits (m + 1)
        by_cases hb : bits = 0
        · simp [bitsValF, hb]
        by_cases hnb : m + 1 ≤ bits
        · simp [bitsValF, hb, hnb]
        · simp only [bitsValF, hb, or_false, if_neg hnb,
            if_neg (by omega : ¬(m + 1 = 0 ∨ bits = 0))]
          congr 1
          rw [ih f (by omega) _ _ _ (by omega), ih m (by omega) _ _ _ (by omega)]

theorem bitsValF_lt (l : List Nat) :
    ∀ fuel buf bits n, bitsValF l fuel buf bits n < 2 ^ n := by
  intro fuel
  induction fuel with
  | zero => intro buf bits n; exact Nat.pos_pow_of_pos n (by omega)
  | succ f ih =>
    intro buf bits n
    simp only [bitsValF]
    by_cases h0 : n = 0 ∨ bits = 0
    · rw [if_pos h0]; exact Nat.pos_pow_of_pos n (by omega)
    · push_neg at h0
      simp only [if_neg (by tauto : ¬(n = 0 ∨ bits = 0))]
      have hmask : byteAt l buf &&& ((1 <<< bits) - 1) < 2 ^ bits := by
        have := Nat.and_le_right (n := byteAt l buf) (m := (1 <<< bits) - 1)
        have h2 : (1 <<< bits) = 2 ^ bits := by rw [Nat.shiftLeft_eq, one_mul]
        have h3 : 0 < 2 ^ bits := Nat.pos_pow_of_pos bits (by omega)
        omega
      by_cases hnb : n ≤ bits
      · simp only [if_pos hnb]
        rw [Nat.shiftRight_eq_div_pow]
        have h4 : 2 ^ bits = 2 ^ n * 2 ^ (bits - n) := by
          rw [← pow_add]; congr 1; omega
        have h5 : 0 < 2 ^ (bits - n) := Nat.pos_pow_of_pos _ (by omega)
        rw [Nat.div_lt_iff_lt_mul h5]
        omega
      · simp only [if_neg hnb]
        apply Nat.or_lt_two_pow
        · rw [Nat.shiftLeft_eq]
          have h4 : 2 ^ n = 2 ^ bits * 2 ^ (n - bits) := by
            rw [← pow_add]; congr 1; omega
          rw [h4]
          exact Nat.mul_lt_mul_of_lt_of_le hmask (le_refl _) (Nat.pos_pow_of_pos _ (by omega))
        · calc bitsValF l f (buf + 1) 8 (n - bits) < 2 ^ (n - bits) := ih _ _ _
            _ ≤ 2 ^ n := Nat.pow_le_pow_right (by omega) (by omega)

theorem bitsVal_lt (l : List Nat) (buf bits n : Nat) : bitsVal l buf bits n < 2 ^ n :=
  bitsValF_lt l n buf bits n

theorem mask8_eq : (1 <<< 8) - 1 = 2 ^ 8 - 1 := by decide

theorem and255 (b : Nat) (hb : b < 256) : b &&& ((1 <<< 8) - 1) = b := by
  rw [mask8_eq]
  exact Nat.and_pow_two_sub_one_of_lt_two_pow hb

theorem ecl_term (l : List Nat) (fuel buf bits acc : Nat) :
    extractChunkLoop l fuel buf bits acc 0 = (buf, bits, acc) := by
  cases fuel <;> simp [extractChunkLoop]

theorem ecl_step8_small (l : List Nat) (fuel buf acc fb : Nat) (h1 : fb ≠ 0) (h2 : fb < 8) :
    extractChunkLoop l (fuel + 1) buf 8 acc fb =
      (buf, 8 - fb, acc ||| (byteAt l buf >>> (8 - fb))) := by
  simp [extractChunkLoop, h1, h2]

theorem ecl_step8_big (l : List Nat) (fuel buf acc fb : Nat) (h1 : 8 ≤ fb) :
    extractChunkLoop l (fuel + 1) buf 8 acc fb =
      extractChunkLoop l fuel (buf + 1) 8 (acc ||| (byteAt l buf <<< (fb - 8))) (fb - 8) := by
  simp [extractChunkLoop, show fb ≠ 0 by omega, show ¬ fb < 8 by omega]

theorem ecl_acc_le (l : List Nat) (fuel buf bits acc fb : Nat)
    (h0 : fb ≠ 0) (h8 : bits ≠ 8) (hle : fb ≤ bits) :
    (extractChunkLoop l (fuel + 1) buf bits acc fb).2.2 =
      acc ||| ((byteAt l buf &&& ((1 <<< bits) - 1)) >>> (bits - fb)) := by
  simp only [extractChunkLoop, if_neg h0, if_neg h8, if_pos hle]
  split <;> rfl

theorem ecl_step_gt (l : List Nat) (fuel buf bits acc fb : Nat)
    (h0 : fb ≠ 0) (h8 : bits ≠ 8) (hgt : bits < fb) :
    extractChunkLoop l (fuel + 1) buf bits acc fb =
      extractChunkLoop l fuel (buf + 1) 8
        (acc ||| ((byteAt l buf &&& ((1 <<< bits) - 1)) <<< (fb - bits))) (fb - bits) := by
  simp [extractChunkLoop, h0, h8, show ¬ fb ≤ bits by omega]

theorem bv_le (l : List Nat) (buf bits n : Nat) (h0 : n ≠ 0) (hb : bits ≠ 0) (hle : n ≤ bits) :
    bitsVal l buf bits n = (byteAt l buf &&& ((1 <<< bits) - 1)) >>> (bits - n) := by
  obtain ⟨k, rfl⟩ : ∃ k, n = k + 1 := ⟨n - 1, by omega⟩
  simp only [bitsVal, bitsValF]
  rw [if_neg (by omega : ¬(k + 1 = 0 ∨ bits = 0)), if_pos hle]

theorem bv_gt (l : List Nat) (buf bits n : Nat) (hb : bits ≠ 0) (hgt : bits < n) :
    bitsVal l buf bits n = ((byteAt l buf &&& ((1 <<< bits) - 1)) <<< (n - bits)) |||
      bitsVal l (buf + 1) 8 (n - bits) := by
  obtain ⟨k, rfl⟩ : ∃ k, n = k + 1 := ⟨n - 1, by omega⟩
  conv_lhs => rw [bitsVal]
  simp only [bitsValF]
  rw [if_neg (by omega : ¬(k + 1 = 0 ∨ bits = 0)), if_neg (by omega : ¬(k + 1 ≤ bits)),
    bitsValF_fuel l k _ _ _ (by omega)]

/-- The C extraction loop reads exactly the next fb unread bits: its
accumulator result is the or of the incoming accumulator with the reference
reader's value.  Requires byte-valued buffer entries and a read sub-byte
offset in 1..8 (the invariant of every reachable cursor). -/
theorem extractChunkLoop_acc (l : List Nat) (hl : ∀ b ∈ l, b < 256) :
    ∀ fuel buf bits acc fb, fb ≤ fuel → 1 ≤ bits → bits ≤ 8 →
      (extractChunkLoop l fuel buf bits acc fb).2.2 = acc ||| bitsVal l buf bits fb := by
  intro fuel
  induction fuel with
  | zero =>
    intro buf bits acc fb hfb _ _
    have h : fb = 0 := by omega
    subst h
    simp [extractChunkLoop, bitsVal, bitsValF]
  | succ fuel ih =>
    intro buf bits acc fb hfb hb1 hb8
    by_cases hfb0 : fb = 0
    · subst hfb0
      simp [ecl_term, bitsVal, bitsValF]
    by_cases h8 : bits = 8
    · subst h8
      by_cases hlt : fb < 8
      · rw [ecl_step8_small l fuel buf acc fb hfb0 hlt,
          bv_le l buf 8 fb hfb0 (by omega) (by omega), and255 _ (byteAt_lt l hl buf)]
      · rw [ecl_step8_big l fuel buf acc fb (by omega),
          ih _ _ _ _ (by omega) (by omega) (by omega)]
        by_cases heq : fb = 8
        · subst heq
          rw [bv_le l buf 8 8 (by omega) (by omega) (by omega), and255 _ (byteAt_lt l hl buf)]
          simp [bitsVal, bitsValF]
        · rw [bv_gt l buf 8 fb (by omega) (by omega), and255 _ (byteAt_lt l hl buf),
            Nat.lor_assoc]
    · by_cases hle : fb ≤ bits
      · rw [ecl_acc_le l fuel buf bits acc fb hfb0 h8 hle,
          bv_le l buf bits fb hfb0 (by omega) hle]
      · rw [ecl_step_gt l fuel buf bits acc fb hfb0 h8 (by omega),
          ih _ _ _ _ (by omega) (by omega) (by omega),
          bv_gt l buf bits fb (by omega) (by omega), Nat.lor_assoc]

/-! Byte/arithmetic helper lemmas for the header codec. -/

theorem length_setByte (l : List Nat) (i v : Nat) : (setByte l i v).length = l.length := by
  simp [setByte]

theorem byteAt_set_self (l : List Nat) (i v : Nat) (h : i < l.length) :
    byteAt (setByte l i v) i = v := by
  simp [byteAt, setByte, List.getElem?_set_self h]

theorem byteAt_set_ne (l : List Nat) (i j v : Nat) (h : i ≠ j) :
    byteAt (setByte l i v) j = byteAt l j := by
  simp [byteAt, setByte, List.getElem?_set_ne h]

theorem lor_shiftLeft_add (a b n : Nat) (hb : b < 2 ^ n) :
    (a <<< n) ||| b = 2 ^ n * a + b := by
  apply Nat.eq_of_testBit_eq
  intro j
  rw [Nat.testBit_mul_pow_two_add a hb j, Nat.testBit_or, Nat.testBit_shiftLeft]
  by_cases hj : j < n
  · simp [show ¬ n ≤ j by omega, hj]
  · have hbj : b.testBit j = false :=
      Nat.testBit_lt_two_pow (lt_of_lt_of_le hb (Nat.pow_le_pow_right (by omega) (by omega : n ≤ j)))
    simp [show n ≤ j by omega, hj, hbj]

theorem toInt8_lt (x : Nat) (h : x < 128) : toInt8 x = (x : Int) := by
  simp [toInt8, Nat.mod_eq_of_lt (by omega : x < 256), h]

theorem and128_fin : ∀ x : Fin 128, x.val &&& 128 = 0 := by decide

theorem and128_eq_zero (x : Nat) (h : x < 128) : x &&& 128 = 0 := and128_fin ⟨x, h⟩

theorem hdrFormA : ∀ d s c2 : Fin 4,
    (0x80 ||| (d.val <<< 5) ||| 0x10 ||| (s.val <<< 2) ||| c2.val) &&& 0x80 ≠ 0 ∧
    (0x80 ||| (d.val <<< 5) ||| 0x10 ||| (s.val <<< 2) ||| c2.val) &&& 0x10 ≠ 0 ∧
    toInt8 (((0x80 ||| (d.val <<< 5) ||| 0x10 ||| (s.val <<< 2) ||| c2.val) >>> 5) ||| 0xFC) =
      (d.val : Int) - 4 ∧
    toInt8 (((0x80 ||| (d.val <<< 5) ||| 0x10 ||| (s.val <<< 2) ||| c2.val) >>> 2) ||| 0xFC) =
      (s.val : Int) - 4 ∧
    (0x80 ||| (d.val <<< 5) ||| 0x10 ||| (s.val <<< 2) ||| c2.val) &&& 0x03 = c2.val := by
  decide

theorem hdrFormB1 : ∀ d : Fin 4, ∀ hi : Fin 16,
    (0x80 ||| (d.val <<< 5) ||| hi.val) &&& 0x80 ≠ 0 ∧
    (0x80 ||| (d.val <<< 5) ||| hi.val) &&& 0x10 = 0 ∧
    toInt8 (((0x80 ||| (d.val <<< 5) ||| hi.val) >>> 5) ||| 0xFC) = (d.val : Int) - 4 ∧
    ((0x80 ||| (d.val <<< 5) ||| hi.val) <<< 3) % 256 = hi.val <<< 3 := by
  decide

theorem hdrFormB2 : ∀ lo : Fin 8, ∀ c : Fin 32,
    ((lo.val <<< 5) ||| c.val) >>> 5 = lo.val ∧
    ((lo.val <<< 5) ||| c.val) &&& 0x1F = c.val := by
  decide

theorem hdrFormC1 : ∀ s : Fin 4, ∀ c : Fin 32,
    (0x80 ||| (s.val <<< 5) ||| c.val) &&& 0x80 ≠ 0 ∧
    toInt8 (((0x80 ||| (s.val <<< 5) ||| c.val) >>> 5) ||| 0xFC) = (s.val : Int) - 4 ∧
    (0x80 ||| (s.val <<< 5) ||| c.val) &&& 0x1F = c.val := by
  decide

/-! Claim theorems. -/

/-- C1 (code bug): the chunk round-trip fails on the code as written.
Evaluating the code at the failing input (a freshly started message from
msg_alloc(20)/msg_start_add, inserting the single pair (value 5, width 4)):
msg_add_chunk reports failure and leaves the message unchanged, because
msg_resize returns false when the buffer is already big enough and
msg_add_chunk treats that as an allocation failure; extracting 4 bits from a
fresh read cursor then yields 0, not 5. -/
theorem C1_chunk_roundtrip_fails_on_fresh_message :
    (msg_add_chunk (msg_start_add (msg_alloc 20)) 5 4).1 = false ∧
    (msg_add_chunk (msg_start_add (msg_alloc 20)) 5 4).2 = msg_start_add (msg_alloc 20) ∧
    (msg_extract_chunk
      { (msg_add_chunk (msg_start_add (msg_alloc 20)) 5 4).2 with
          data_pos := MSG_MAXHDR, data_pos_off := 8 } 4).1 ≠ 5 := by
  decide

/-- C9 (code bug): msg_resize does not succeed when the capacity already
satisfies the request — it returns false for a freshly allocated message
(data_max 28) asked to hold 6 bytes, although no allocation failure occurred
(the model's realloc always succeeds), and leaves the message unchanged. -/
theorem C9_resize_rejects_sufficient_capacity :
    6 ≤ (msg_alloc 20).data_max ∧
    msg_resize (msg_alloc 20) 6 = (false, msg_alloc 20) := by
  decide

/-- A message whose read cursor has exactly 7 unread bits (the low 7 bits of
byte 3 are already consumed down to offset 1, i.e. 0xAC's top 7 bits). -/
def c2cex : BusMessage :=
  { data := [0, 0, 0, 0xAC, 0, 0], data_max := 6, data_off := 3
    data_pos := 3, data_pos_off := 8, data_end := 3, data_end_off := 1 }

/-- C2 (counterexample): with width 8 and only 7 unread bits (1 bit
missing), msg_extract_chunk returns the remaining bits shifted left by one
with the flag bit 1 << 8 clear — the claim's "flag bit set for every such
call" is false when fewer than 8 bits are missing. -/
theorem C2_counterexample_flag_clear_when_missing_lt8 :
    msg_avail_bits c2cex = 7 ∧ 7 < 8 ∧
    (msg_extract_chunk c2cex 8).1 = 0xAC ∧
    (msg_extract_chunk c2cex 8).1.testBit 8 = false ∧
    (msg_extract_chunk c2cex 8).1 &&& (1 <<< 8) = 0 := by
  decide

/-- C2 (amended): whenever msg_extract_chunk is called with width w (at most
15, the range the function's assert admits for a short read) and fewer than
w unread bits remain (but at least one), the genuine remaining bits are
returned shifted up to a byte boundary — left by the number of missing bits
when fewer than 8 are missing, left by missing-8 when at least 8 are — and
the flag bit 1 << w is set exactly when at least 8 bits are missing, as
message.h documents, not on every short read. -/
theorem C2_extract_chunk_end_sentinel (m : BusMessage) (w : Nat)
    (hbytes : ∀ b ∈ m.data, b < 256)
    (hpos1 : 1 ≤ m.data_pos_off) (hpos8 : m.data_pos_off ≤ 8)
    (hR0 : 0 < msg_avail_bits m) (hRw : msg_avail_bits m < w) (hw : w ≤ 15) :
    (msg_extract_chunk m w).1 =
      (if 8 ≤ w - msg_avail_bits m then
        (bitsVal m.data m.data_pos m.data_pos_off (msg_avail_bits m) <<<
          (w - msg_avail_bits m - 8)) ||| (1 <<< w)
      else
        bitsVal m.data m.data_pos m.data_pos_off (msg_avail_bits m) <<<
          (w - msg_avail_bits m)) ∧
    ((msg_extract_chunk m w).1.testBit w = true ↔ 8 ≤ w - msg_avail_bits m) := by
  have hloop := extractChunkLoop_acc m.data hbytes (msg_avail_bits m + 1)
    m.data_pos m.data_pos_off 0 (msg_avail_bits m) (by omega) hpos1 hpos8
  rw [Nat.zero_or] at hloop
  have hVlt : bitsVal m.data m.data_pos m.data_pos_off (msg_avail_bits m) <
      2 ^ msg_avail_bits m := bitsVal_lt _ _ _ _
  have hval : (msg_extract_chunk m w).1 =
      (if 8 ≤ w - msg_avail_bits m then
        ((bitsVal m.data m.data_pos m.data_pos_off (msg_avail_bits m) <<<
          (w - msg_avail_bits m - 8)) ||| (1 <<< w)) % 65536
      else
        (bitsVal m.data m.data_pos m.data_pos_off (msg_avail_bits m) <<<
          (w - msg_avail_bits m)) % 65536) := by
    simp only [msg_extract_chunk, msg_avail_bits] at hloop hRw hR0 ⊢
    rw [if_pos hRw]
    simp only [if_pos hRw, hloop, if_pos (show w - (m.data_end <<< 3 - m.data_end_off -
      (m.data_pos <<< 3 - m.data_pos_off)) ≠ 0 by omega)]
  rw [hval]
  by_cases hx : 8 ≤ w - msg_avail_bits m
  · have hb1 : bitsVal m.data m.data_pos m.data_pos_off (msg_avail_bits m) <<<
        (w - msg_avail_bits m - 8) < 2 ^ (w - 8) := by
      rw [Nat.shiftLeft_eq]
      calc bitsVal m.data m.data_pos m.data_pos_off (msg_avail_bits m) *
            2 ^ (w - msg_avail_bits m - 8)
          < 2 ^ msg_avail_bits m * 2 ^ (w - msg_avail_bits m - 8) :=
            Nat.mul_lt_mul_of_pos_right hVlt (Nat.pos_pow_of_pos _ (by omega))
        _ = 2 ^ (w - 8) := by rw [← pow_add]; congr 1; omega
    have hor : (bitsVal m.data m.data_pos m.data_pos_off (msg_avail_bits m) <<<
        (w - msg_avail_bits m - 8)) ||| (1 <<< w) < 2 ^ 16 := by
      apply Nat.or_lt_two_pow
      · exact lt_of_lt_of_le hb1 (Nat.pow_le_pow_right (by omega) (by omega))
      · rw [Nat.one_shiftLeft]
        exact Nat.pow_lt_pow_right (by omega) (by omega)
    rw [if_pos hx, Nat.mod_eq_of_lt (by simpa using hor)]
    refine ⟨by rw [if_pos hx], ?_⟩
    have hset : ((bitsVal m.data m.data_pos m.data_pos_off (msg_avail_bits m) <<<
        (w - msg_avail_bits m - 8)) ||| (1 <<< w)).testBit w = true := by
      rw [Nat.testBit_or, Nat.one_shiftLeft, Nat.testBit_two_pow_self, Bool.or_true]
    rw [hset]
    simp [hx]
  · have hb1 : bitsVal m.data m.data_pos m.data_pos_off (msg_avail_bits m) <<<
        (w - msg_avail_bits m) < 2 ^ w := by
      rw [Nat.shiftLeft_eq]
      calc bitsVal m.data m.data_pos m.data_pos_off (msg_avail_bits m) *
            2 ^ (w - msg_avail_bits m)
          < 2 ^ msg_avail_bits m * 2 ^ (w - msg_avail_bits m) :=
            Nat.mul_lt_mul_of_pos_right hVlt (Nat.pos_pow_of_pos _ (by omega))
        _ = 2 ^ w := by rw [← pow_add]; congr 1; omega
    rw [if_neg hx, Nat.mod_eq_of_lt (lt_of_lt_of_le hb1 (by
      calc (2:Nat) ^ w ≤ 2 ^ 15 := Nat.pow_le_pow_right (by omega) hw
        _ ≤ 65536 := by norm_num))]
    refine ⟨by rw [if_neg hx], ?_⟩
    rw [Nat.testBit_lt_two_pow hb1]
    simp [hx]

/-- A message with 2 unread bits (the low 2 bits of byte 3, value 3): the
witness input for the amended C2 theorem, matching the worked example in the
msg_extract_chunk comment (frame_bits = 11, 2 bits left). -/
def c2wit : BusMessage :=
  { data := [0, 0, 0, 3, 0, 0], data_max := 6, data_off := 3
    data_pos := 3, data_pos_off := 2, data_end := 4, data_end_off := 8 }

/-- C2 witness: the amended theorem applied at the concrete message c2wit
with width 11 (9 bits missing: value 110 00000 0110b = 2054, flag set). -/
theorem C2_extract_chunk_end_sentinel_witness :
    (msg_extract_chunk c2wit 11).1 =
      (if 8 ≤ 11 - msg_avail_bits c2wit then
        (bitsVal c2wit.data c2wit.data_pos c2wit.data_pos_off (msg_avail_bits c2wit) <<<
          (11 - msg_avail_bits c2wit - 8)) ||| (1 <<< 11)
      else
        bitsVal c2wit.data c2wit.data_pos c2wit.data_pos_off (msg_avail_bits c2wit) <<<
          (11 - msg_avail_bits c2wit)) ∧
    ((msg_extract_chunk c2wit 11).1.testBit 11 = true ↔ 8 ≤ 11 - msg_avail_bits c2wit) :=
  C2_extract_chunk_end_sentinel c2wit 11 (by decide) (by decide) (by decide)
    (by decide) (by decide) (by decide)

/-- C3: header round-trip.  For every triple in its legal range (src and dst
each a reserved negative value -4..-1 or an ordinary address 0..127, code
within the width of the selected form: 2 bits when both are reserved, 5 bits
when exactly one is, 8 bits when both are ordinary), encoding with
msg_add_header and decoding the resulting bytes with msg_read_header from a
fresh reader reproduces src, dst and code exactly, and the recorded header
length follows the 1/2/3-byte rule on both sides. -/
theorem C3_header_roundtrip (src dst : Int) (code : Nat)
    (hsrc1 : -4 ≤ src) (hsrc2 : src ≤ 127) (hdst1 : -4 ≤ dst) (hdst2 : dst ≤ 127)
    (hcode : code < if dst < 0 then (if src < 0 then 4 else 32)
                    else (if src < 0 then 32 else 256)) :
    (hdr_wire_reader (msg_add_header (hdr_msg src dst code))).src = src ∧
    (hdr_wire_reader (msg_add_header (hdr_msg src dst code))).dst = dst ∧
    (hdr_wire_reader (msg_add_header (hdr_msg src dst code))).code = code ∧
    (msg_add_header (hdr_msg src dst code)).hdr_len =
      (if dst < 0 then (if src < 0 then 1 else 2) else (if src < 0 then 2 else 3)) ∧
    (hdr_wire_reader (msg_add_header (hdr_msg src dst code))).hdr_len =
      (msg_add_header (hdr_msg src dst code)).hdr_len := by
  by_cases hd : dst < 0
  · by_cases hs : src < 0
    · -- form A: one byte
      rw [if_pos hd, if_pos hs] at hcode
      have hc3 : code &&& 3 = code := by
        rw [show (3:Nat) = 2 ^ 2 - 1 from rfl, Nat.and_pow_two_sub_one_eq_mod]
        omega
      obtain ⟨hA1, hA2, hA3, hA4, hA5⟩ := hdrFormA ⟨(dst % 4).toNat, by omega⟩
        ⟨(src % 4).toNat, by omega⟩ ⟨code, hcode⟩
      have gd : ((dst % 4).toNat : Int) - 4 = dst := by omega
      have gs : ((src % 4).toNat : Int) - 4 = src := by omega
      simp only [hdr_msg, msg_add_header, hdr_wire_reader, msg_read_header]
      rw [if_pos hd, if_pos hs, hc3]
      norm_num [setByte, byteAt, MSG_MAXHDR, List.set, List.getD]
      rw [if_neg (by simpa using hA1), if_neg (by simpa using hA2)]
      refine ⟨?_, ?_, ?_, by rw [if_pos hd, if_pos hs], rfl⟩
      · rw [show ((⟨(src % 4).toNat, by omega⟩ : Fin 4).val : Int) - 4 = src from gs] at hA4
        exact hA4
      · rw [show ((⟨(dst % 4).toNat, by omega⟩ : Fin 4).val : Int) - 4 = dst from gd] at hA3
        exact hA3
      · exact hA5
    · -- form B: reserved dst, positive src, two bytes
      rw [if_pos hd, if_neg hs] at hcode
      push_neg at hs
      have hc31 : code &&& 31 = code := by
        rw [show (31:Nat) = 2 ^ 5 - 1 from rfl, Nat.and_pow_two_sub_one_eq_mod]; omega
      have hmm1 : toU8 src < 128 := by unfold toU8; omega
      have hmm2 : ((toU8 src : Nat) : Int) = src := by unfold toU8; omega
      have hsr3 : toU8 src >>> 3 = toU8 src / 8 := by
        rw [Nat.shiftRight_eq_div_pow]
      obtain ⟨hB1, hB2, hB3, hB4⟩ := hdrFormB1 ⟨(dst % 4).toNat, by omega⟩
        ⟨toU8 src >>> 3, by omega⟩
      have gd : ((dst % 4).toNat : Int) - 4 = dst := by omega
      have e1 : ((toU8 src <<< 5) ||| code) % 256 = ((toU8 src % 8) <<< 5) ||| code := by
        rw [lor_shiftLeft_add _ code 5 (by omega), lor_shiftLeft_add _ code 5 (by omega)]
        omega
      obtain ⟨hB5, hB6⟩ := hdrFormB2 ⟨toU8 src % 8, by omega⟩ ⟨code, hcode⟩
      have e2 : ((toU8 src >>> 3) <<< 3) ||| (toU8 src % 8) = toU8 src := by
        rw [lor_shiftLeft_add _ _ 3 (by omega)]
        omega
      simp only [hdr_msg, msg_add_header, hdr_wire_reader, msg_read_header]
      rw [if_pos hd, if_neg (by omega : ¬ src < 0), hc31]
      norm_num [setByte, byteAt, MSG_MAXHDR, List.set, List.getD]
      dsimp only at hB1 hB2 hB3 hB4 hB5 hB6
      rw [if_neg hB1, if_pos hB2]
      dsimp only
      refine ⟨?_, ?_, ?_, by rw [if_pos hd, if_neg (by omega : ¬ src < 0)], rfl⟩
      · rw [hB4, e1, hB5, e2, toInt8_lt _ hmm1, hmm2]
      · rw [hB3, gd]
      · rw [e1, hB6]
  · by_cases hs : src < 0
    · -- form C: positive dst, reserved src, two bytes
      rw [if_neg hd, if_pos hs] at hcode
      push_neg at hd
      have hc31 : code &&& 31 = code := by
        rw [show (31:Nat) = 2 ^ 5 - 1 from rfl, Nat.and_pow_two_sub_one_eq_mod]; omega
      have hdn1 : toU8 dst < 128 := by unfold toU8; omega
      have hdn2 : ((toU8 dst : Nat) : Int) = dst := by unfold toU8; omega
      obtain ⟨hC1, hC2, hC3⟩ := hdrFormC1 ⟨(src % 4).toNat, by omega⟩ ⟨code, hcode⟩
      have gs : ((src % 4).toNat : Int) - 4 = src := by omega
      simp only [hdr_msg, msg_add_header, hdr_wire_reader, msg_read_header]
      rw [if_neg (by omega : ¬ dst < 0), if_pos hs, hc31]
      norm_num [setByte, byteAt, MSG_MAXHDR, List.set, List.getD]
      dsimp only at hC1 hC2 hC3
      rw [if_pos (and128_eq_zero _ hdn1), if_neg hC1]
      dsimp only
      refine ⟨?_, ?_, ?_, by rw [if_neg (by omega : ¬ dst < 0), if_pos hs], rfl⟩
      · rw [hC2, gs]
      · rw [toInt8_lt _ hdn1, hdn2]
      · exact hC3
    · -- form D: both positive, three bytes
      rw [if_neg hd, if_neg hs] at hcode
      push_neg at hd hs
      have hdn1 : toU8 dst < 128 := by unfold toU8; omega
      have hdn2 : ((toU8 dst : Nat) : Int) = dst := by unfold toU8; omega
      have hsn1 : toU8 src < 128 := by unfold toU8; omega
      have hsn2 : ((toU8 src : Nat) : Int) = src := by unfold toU8; omega
      have hcm : code % 256 = code := by omega
      simp only [hdr_msg, msg_add_header, hdr_wire_reader, msg_read_header]
      rw [if_neg (by omega : ¬ dst < 0), if_neg (by omega : ¬ src < 0), hcm]
      norm_num [setByte, byteAt, MSG_MAXHDR, List.set, List.getD]
      rw [if_pos (and128_eq_zero _ hdn1), if_pos (and128_eq_zero _ hsn1)]
      dsimp only
      refine ⟨?_, ?_, rfl,
        by rw [if_neg (by omega : ¬ dst < 0), if_neg (by omega : ¬ src < 0)], rfl⟩
      · rw [toInt8_lt _ hsn1, hsn2]
      · rw [toInt8_lt _ hdn1, hdn2]

/-- C3 witness: the round-trip theorem applied at src 5, dst -3, code 7
(the two-byte reserved-destination form). -/
theorem C3_header_roundtrip_witness :
    (hdr_wire_reader (msg_add_header (hdr_msg 5 (-3) 7))).src = 5 ∧
    (hdr_wire_reader (msg_add_header (hdr_msg 5 (-3) 7))).dst = -3 ∧
    (hdr_wire_reader (msg_add_header (hdr_msg 5 (-3) 7))).code = 7 ∧
    (msg_add_header (hdr_msg 5 (-3) 7)).hdr_len =
      (if (-3 : Int) < 0 then (if (5 : Int) < 0 then 1 else 2)
       else (if (5 : Int) < 0 then 2 else 3)) ∧
    (hdr_wire_reader (msg_add_header (hdr_msg 5 (-3) 7))).hdr_len =
      (msg_add_header (hdr_msg 5 (-3) 7)).hdr_len :=
  C3_header_roundtrip 5 (-3) 7 (by decide) (by decide) (by decide) (by decide) (by decide)

end MoatBus
namespace MoatBus
namespace Handler

/-- The configuration-and-chunk part of the handler state that the
set_state / send_next / start_writer / error call web never modifies. -/
def cfg_eq (h h' : HState) : Prop :=
  h'.WIRES = h.WIRES ∧ h'.MAX = h.MAX ∧ h'.BITS = h.BITS ∧ h'.LEN = h.LEN ∧
  h'.LEN_CRC = h.LEN_CRC ∧ h'.N_END = h.N_END ∧ h'.VAL_END = h.VAL_END ∧
  h'.VAL_MAX = h.VAL_MAX ∧ h'.last = h.last ∧ h'.cur_chunk = h.cur_chunk

theorem cfg_eq_refl (h : HState) : cfg_eq h h := by simp [cfg_eq]

theorem cfg_eq_trans {h1 h2 h3 : HState} (a : cfg_eq h1 h2) (b : cfg_eq h2 h3) :
    cfg_eq h1 h3 := by
  unfold cfg_eq at *
  simp_all

theorem cfg_emit (h : HState) (e : Ev) : cfg_eq h (emit h e) := by simp [cfg_eq, emit]

theorem cfg_set_wire (h : HState) (b : Nat) : cfg_eq h (h_set_wire h b) := by
  simp [cfg_eq, h_set_wire, emit]

theorem cfg_set_timeout (h : HState) (v : Nat) : cfg_eq h (h_set_timeout h v) := by
  unfold h_set_timeout emit cfg_eq
  split_ifs <;> simp

theorem cfg_transmitted (h : HState) (m : BusMessage) (r : HRes) :
    cfg_eq h (h_transmitted h m r) := by
  simp [cfg_eq, h_transmitted, emit]

theorem cfg_reset (h : HState) : cfg_eq h (h_reset h) := by simp [cfg_eq, h_reset]

theorem cfg_set_ack_mask (h : HState) : cfg_eq h (h_set_ack_mask h) := by
  simp [cfg_eq, h_set_ack_mask]

theorem cfg_set_state_pre (h : HState) (st : Nat) : cfg_eq h (h_set_state_pre h st) := by
  unfold h_set_state_pre
  split_ifs <;> simp [cfg_eq, h_set_wire, h_set_ack_mask, emit]

theorem cfg_send_next_pop (h : HState) : cfg_eq h (h_send_next_pop h) := by
  unfold h_send_next_pop
  split_ifs
  · cases h.q_prio <;> [skip; exact (by simp [cfg_eq])]
    cases h.q <;> simp [cfg_eq]
  · exact cfg_eq_refl h

theorem cfg_send_next_prio (h : HState) (msg : BusMessage) :
    cfg_eq h (h_send_next_prio h msg) := by
  unfold h_send_next_prio
  split_ifs <;> by_cases hW : h.WIRES ≤ msg.prio <;> simp [cfg_eq, hW]

theorem cfg_cluster (fuel : Nat) :
    (∀ h st, cfg_eq h (h_set_state fuel h st)) ∧
    (∀ h, cfg_eq h (h_send_next fuel h)) ∧
    (∀ h, cfg_eq h (h_start_writer fuel h)) := by
  induction fuel with
  | zero =>
    refine ⟨fun h st => ?_, fun h => ?_, fun h => ?_⟩ <;>
      simp [h_set_state, h_send_next, h_start_writer, cfg_eq_refl]
  | succ fuel ih =>
    obtain ⟨ihS, ihN, ihW⟩ := ih
    refine ⟨fun h st => ?_, fun h => ?_, fun h => ?_⟩
    · show cfg_eq h (h_set_state (fuel + 1) h st)
      simp only [h_set_state]
      split_ifs with c1 c2 c3 c4 c5 c6
      · exact cfg_eq_refl h
      · refine cfg_eq_trans (cfg_set_state_pre h st)
          (cfg_eq_trans ?_ (cfg_set_timeout _ _))
        simp [cfg_eq]
      · refine cfg_eq_trans (cfg_set_state_pre h st)
          (cfg_eq_trans ?_ (cfg_set_timeout _ _))
        simp [cfg_eq]
      · refine cfg_eq_trans (cfg_set_state_pre h st)
          (cfg_eq_trans ?_ (cfg_eq_trans (cfg_reset _)
            (cfg_eq_trans (ihN _) (cfg_set_timeout _ _))))
        simp [cfg_eq]
      · refine cfg_eq_trans (cfg_set_state_pre h st)
          (cfg_eq_trans ?_ (cfg_eq_trans (cfg_reset _)
            (cfg_eq_trans (ihN _) (cfg_set_timeout _ _))))
        simp [cfg_eq]
      · refine cfg_eq_trans (cfg_set_state_pre h st)
          (cfg_eq_trans ?_ (cfg_eq_trans (cfg_reset _)
            (cfg_eq_trans (ihN _) (cfg_set_timeout _ _))))
        simp [cfg_eq]
      · refine cfg_eq_trans (cfg_set_state_pre h st) ?_
        simp [cfg_eq]
    · show cfg_eq h (h_send_next (fuel + 1) h)
      rw [h_send_next]
      refine cfg_eq_trans (cfg_send_next_pop h) ?_
      cases (h_send_next_pop h).sending with
      | none => exact cfg_eq_refl _
      | some msg =>
        simp only []
        refine cfg_eq_trans (cfg_send_next_prio _ msg) ?_
        split_ifs
        · exact ihW _
        · exact cfg_eq_refl _
    · show cfg_eq h (h_start_writer (fuel + 1) h)
      simp only [h_start_writer]
      refine cfg_eq_trans
          (?_ : cfg_eq h { h with cur_pos := 0, cur_len := 0, settle := true, sending := h.sending.map msg_start_extract })
          (cfg_eq_trans
            (cfg_set_wire { h with cur_pos := 0, cur_len := 0, settle := true, sending := h.sending.map msg_start_extract }
              ({ h with cur_pos := 0, cur_len := 0, settle := true, sending := h.sending.map msg_start_extract } : HState).want_prio)
            (cfg_eq_trans (ihS _ S_WRITE_ACQUIRE) ?_))
      · simp [cfg_eq]
      · simp [cfg_eq]

end Handler
end MoatBus
namespace MoatBus
namespace Handler

set_option maxRecDepth 10000

theorem lowest_bit_fin : ∀ b : Fin 256, 0 < b.val →
    ∃ k : Fin 8, b.val &&& ((b.val - 1) ^^^ 255) = 1 <<< k.val ∧
      b.val.testBit k.val = true ∧
      ∀ j : Fin 8, j.val < k.val → b.val.testBit j.val = false := by decide

theorem lowest_bit_of (b : Nat) (h1 : 0 < b) (h2 : b < 256) :
    ∃ k, b &&& ((b - 1) ^^^ 255) = 1 <<< k ∧
      b.testBit k = true ∧ ∀ j, j < k → b.testBit j = false := by
  obtain ⟨k, hk1, hk2, hk3⟩ := lowest_bit_fin ⟨b, h2⟩ h1
  refine ⟨k.val, hk1, hk2, fun j hj => ?_⟩
  have hj8 : j < 8 := lt_trans hj k.isLt
  exact hk3 ⟨j, hj8⟩ hj

theorem wp_pre (h : HState) (st : Nat) :
    (h_set_state_pre h st).want_prio = h.want_prio := by
  unfold h_set_state_pre
  split_ifs <;> simp [h_set_wire, h_set_ack_mask, emit]

theorem wp_timeout (h : HState) (v : Nat) :
    (h_set_timeout h v).want_prio = h.want_prio := by
  unfold h_set_timeout emit
  split_ifs <;> simp

theorem wp_reset (h : HState) : (h_reset h).want_prio = h.want_prio := by
  simp [h_reset]

theorem wp_pop (h : HState) : (h_send_next_pop h).want_prio = h.want_prio := by
  unfold h_send_next_pop
  split_ifs
  · cases h.q_prio <;> [skip; simp]
    cases h.q <;> simp
  · rfl

theorem send_next_prio_of_ne (h : HState) (msg : BusMessage)
    (hw : h.want_prio ≠ 0) : h_send_next_prio h msg = h := by
  unfold h_send_next_prio
  rw [if_neg hw]

theorem wp_cluster (fuel : Nat) :
    (∀ h st, h.want_prio ≠ 0 → (h_set_state fuel h st).want_prio = h.want_prio) ∧
    (∀ h, h.want_prio ≠ 0 → (h_send_next fuel h).want_prio = h.want_prio) ∧
    (∀ h, h.want_prio ≠ 0 → (h_start_writer fuel h).want_prio = h.want_prio) := by
  induction fuel with
  | zero =>
    refine ⟨fun h st _ => ?_, fun h _ => ?_, fun h _ => ?_⟩ <;>
      simp [h_set_state, h_send_next, h_start_writer]
  | succ fuel ih =>
    obtain ⟨ihS, ihN, ihW⟩ := ih
    refine ⟨fun h st hw => ?_, fun h hw => ?_, fun h hw => ?_⟩
    · show (h_set_state (fuel + 1) h st).want_prio = h.want_prio
      simp only [h_set_state]
      split_ifs with c1 c2 c3 c4 c5 c6
      · rfl
      · simp [wp_timeout, wp_pre]
      · simp [wp_timeout, wp_pre]
      · rw [wp_timeout, ihN _ (by simpa [wp_reset, wp_pre] using hw)]
        simp [wp_reset, wp_pre]
      · rw [wp_timeout, ihN _ (by simpa [wp_reset, wp_pre] using hw)]
        simp [wp_reset, wp_pre]
      · rw [wp_timeout, ihN _ (by simpa [wp_reset, wp_pre] using hw)]
        simp [wp_reset, wp_pre]
      · simp [wp_pre]
    · show (h_send_next (fuel + 1) h).want_prio = h.want_prio
      simp only [h_send_next]
      have hp := wp_pop h
      cases hq : (h_send_next_pop h).sending with
      | none => simp only [hq]; exact hp
      | some msg =>
        simp only [hq]
        rw [send_next_prio_of_ne _ _ (by rw [hp]; exact hw)]
        split_ifs with hc
        · rw [ihW _ (by rw [hp]; exact hw), hp]
        · exact hp
    · show (h_start_writer (fuel + 1) h).want_prio = h.want_prio
      simp only [h_start_writer]
      rw [show ∀ x : HState, ({ x with write_state := W_MORE } : HState).want_prio
            = x.want_prio from fun _ => rfl]
      rw [ihS _ S_WRITE_ACQUIRE (by simpa [h_set_wire, emit] using hw)]
      simp [h_set_wire, emit]

end Handler
end MoatBus
namespace MoatBus
namespace Handler

theorem wp_crc (h : HState) (b : Nat) : (h_crc h b).want_prio = h.want_prio := by
  simp [h_crc]

theorem wp_error (env : Env) (h : HState) (typ : Int)
    (hw : h.want_prio ≠ 0) (ht : ERR_FATAL < typ) :
    (h_error env h typ).want_prio = h.want_prio := by
  have hS := (wp_cluster FUEL).1
  simp only [h_error]
  split_ifs with c1 c2 c3 c4 c5 c6 c7 c8
  · rfl
  · rw [hS _ _ hw]
  · rw [hS _ _ hw]
  · exact absurd c5.1 (not_le.mpr ht)
  · exact absurd c6.2 (by omega)
  · rw [hS _ _ (by simpa [wp_reset, emit] using hw)]
    simp [wp_reset, emit]
  · exact absurd c7.1 (not_le.mpr ht)
  · exact absurd c8.2 (by omega)
  · rw [hS _ _ (by simpa [wp_reset, emit] using hw)]
    simp [wp_reset, emit]
end Handler
end MoatBus
namespace MoatBus
namespace Handler

theorem wp_read_crc (h : HState) (hw : h.want_prio ≠ 0) :
    (h_read_crc h).want_prio = h.want_prio := by
  unfold h_read_crc
  rw [(wp_cluster FUEL).1 _ _ (by simpa using hw)]

theorem wp_process (env : Env) (h : HState) (m : BusMessage) :
    (h_process env h m).2.want_prio = h.want_prio := by
  simp [h_process, emit]

theorem wp_ack (h : HState) : (h_set_ack_mask h).want_prio = h.want_prio := by
  unfold h_set_ack_mask
  split_ifs <;> simp

theorem wp_read_done (env : Env) (h : HState) (crc_ok : Bool)
    (hw : h.want_prio ≠ 0) :
    (h_read_done env h crc_ok).want_prio = h.want_prio := by
  have hS := (wp_cluster FUEL).1
  simp only [h_read_done]
  split_ifs <;> rw [hS] <;> simp_all [wp_ack, wp_process, emit]

theorem wp_read_next (env : Env) (h : HState) (bits : Nat)
    (hw : h.want_prio ≠ 0) :
    (h_read_next env h bits).want_prio = h.want_prio := by
  simp only [h_read_next]
  split_ifs with c1 c2 c3 c4 c5 c6 c7
  · exact wp_error env h ERR_NOTHING hw (by decide)
  · rw [wp_read_done _ _ _ (by simpa using hw)]
  · rfl
  · rw [wp_read_crc _ (by simpa using hw)]
  · exact wp_error env _ ERR_CRC (by simpa using hw) (by decide)
  · rw [wp_read_crc _ (by simpa using hw)]
  · rfl
  · rfl

end Handler
end MoatBus
namespace MoatBus
namespace Handler

/-- C4: for every nonzero unexpected bit pattern (a u_int8_t, so < 256)
observed while writing, h_write_collision leaves the handler with
want_prio equal to exactly the lowest set bit of that pattern
(bits & ~(bits-1)), whatever else the salvage/replay path does. -/
theorem C4_collision_lowest_bit (env : Env) (h : HState) (bits : Nat) (settled : Bool)
    (h1 : 0 < bits) (h2 : bits < 256) :
    ∃ k, (h_write_collision env h bits settled).want_prio = 1 <<< k ∧
      bits.testBit k = true ∧ ∀ j, j < k → bits.testBit j = false := by
  obtain ⟨k, hk1, hk2, hk3⟩ := lowest_bit_of bits h1 h2
  refine ⟨k, ?_, hk2, hk3⟩
  have hm' : (1 <<< k : Nat) ≠ 0 := by
    rw [Nat.one_shiftLeft]
    positivity
  have hm : bits &&& ((bits - 1) ^^^ 255) ≠ 0 := by rw [hk1]; exact hm'
  cases hm2 : h.msg_in with
  | none =>
    cases settled <;>
      simp only [h_write_collision, emit, hm2] <;>
      simp [wp_read_next, wp_crc, hm, hm', (wp_cluster FUEL).1, hk1]
  | some msg =>
    cases settled <;>
      simp only [h_write_collision, emit, hm2] <;>
      simp [wp_read_next, wp_crc, hm, hm', (wp_cluster FUEL).1, hk1]

end Handler
end MoatBus
namespace MoatBus
namespace Handler

/-- C4 witness: the collision theorem applied to the 3-wire handler with
observed pattern 12 (lowest set bit 4 = 1 << 2). -/
theorem C4_collision_lowest_bit_witness :
    ∃ k, (h_write_collision (⟨fun _ => true, id⟩ : Env) (hdl_alloc 0 3) 12 false).want_prio = 1 <<< k ∧
      (12 : Nat).testBit k = true ∧ ∀ j, j < k → (12 : Nat).testBit j = false :=
  C4_collision_lowest_bit (⟨fun _ => true, id⟩ : Env) (hdl_alloc 0 3) 12 false
    (by decide) (by decide)

end Handler
end MoatBus
namespace MoatBus
namespace Handler

/-- The queue/retry bookkeeping that the set_state / send_next /
start_writer call web leaves alone as long as a send is in flight
(`sending` occupied, so the queue pop never fires). -/
def qt_eq (h h' : HState) : Prop :=
  h'.q = h.q ∧ h'.q_prio = h.q_prio ∧ h'.tries = h.tries ∧
  h'.sending.isSome = h.sending.isSome

theorem qt_eq_refl (h : HState) : qt_eq h h := by simp [qt_eq]

theorem qt_eq_trans {h1 h2 h3 : HState} (a : qt_eq h1 h2) (b : qt_eq h2 h3) :
    qt_eq h1 h3 := by
  unfold qt_eq at *
  simp_all

theorem qt_pre (h : HState) (st : Nat) : qt_eq h (h_set_state_pre h st) := by
  unfold h_set_state_pre
  split_ifs <;> simp [qt_eq, h_set_wire, h_set_ack_mask, emit]

theorem qt_timeout (h : HState) (v : Nat) : qt_eq h (h_set_timeout h v) := by
  unfold h_set_timeout emit
  split_ifs <;> simp [qt_eq]

theorem qt_reset (h : HState) : qt_eq h (h_reset h) := by simp [qt_eq, h_reset]

theorem qt_prio (h : HState) (msg : BusMessage) : qt_eq h (h_send_next_prio h msg) := by
  unfold h_send_next_prio
  split_ifs <;> by_cases hW : h.WIRES ≤ msg.prio <;> simp [qt_eq, hW]

theorem pop_of_some (h : HState) (hs : h.sending.isSome = true) :
    h_send_next_pop h = h := by
  unfold h_send_next_pop
  rw [if_neg (by simp [Option.isSome_iff_ne_none] at hs; exact hs)]

theorem qt_cluster (fuel : Nat) :
    (∀ h st, h.sending.isSome = true → qt_eq h (h_set_state fuel h st)) ∧
    (∀ h, h.sending.isSome = true → qt_eq h (h_send_next fuel h)) ∧
    (∀ h, h.sending.isSome = true → qt_eq h (h_start_writer fuel h)) := by
  induction fuel with
  | zero =>
    refine ⟨fun h st _ => ?_, fun h _ => ?_, fun h _ => ?_⟩ <;>
      simp [h_set_state, h_send_next, h_start_writer, qt_eq_refl]
  | succ fuel ih =>
    obtain ⟨ihS, ihN, ihW⟩ := ih
    refine ⟨fun h st hs => ?_, fun h hs => ?_, fun h hs => ?_⟩
    · show qt_eq h (h_set_state (fuel + 1) h st)
      simp only [h_set_state]
      split_ifs with c1 c2 c3 c4 c5 c6
      · exact qt_eq_refl h
      · refine qt_eq_trans (qt_pre h st) (qt_eq_trans ?_ (qt_timeout _ _))
        simp [qt_eq]
      · refine qt_eq_trans (qt_pre h st) (qt_eq_trans ?_ (qt_timeout _ _))
        simp [qt_eq]
      · refine qt_eq_trans (qt_pre h st)
          (qt_eq_trans ?_ (qt_eq_trans (qt_reset _)
            (qt_eq_trans (ihN _ (by simp [h_reset, qt_pre]; simpa [(qt_pre h st).2.2.2] using hs))
              (qt_timeout _ _))))
        simp [qt_eq]
      · refine qt_eq_trans (qt_pre h st)
          (qt_eq_trans ?_ (qt_eq_trans (qt_reset _)
            (qt_eq_trans (ihN _ (by simp [h_reset, qt_pre]; simpa [(qt_pre h st).2.2.2] using hs))
              (qt_timeout _ _))))
        simp [qt_eq]
      · refine qt_eq_trans (qt_pre h st)
          (qt_eq_trans ?_ (qt_eq_trans (qt_reset _)
            (qt_eq_trans (ihN _ (by simp [h_reset, qt_pre]; simpa [(qt_pre h st).2.2.2] using hs))
              (qt_timeout _ _))))
        simp [qt_eq]
      · refine qt_eq_trans (qt_pre h st) ?_
        simp [qt_eq]
    · show qt_eq h (h_send_next (fuel + 1) h)
      simp only [h_send_next]
      rw [pop_of_some h hs]
      cases hq : h.sending with
      | none => simp [hq] at hs
      | some msg =>
        simp only [hq]
        refine qt_eq_trans (qt_prio h msg) ?_
        split_ifs with hc
        · exact ihW _ (by rw [(qt_prio h msg).2.2.2, hq]; rfl)
        · exact qt_eq_refl _
    · show qt_eq h (h_start_writer (fuel + 1) h)
      simp only [h_start_writer]
      refine qt_eq_trans
          (?_ : qt_eq h { h with cur_pos := 0, cur_len := 0, settle := true, sending := h.sending.map msg_start_extract })
          (qt_eq_trans
            (?_ : qt_eq _ (h_set_wire { h with cur_pos := 0, cur_len := 0, settle := true, sending := h.sending.map msg_start_extract }
              ({ h with cur_pos := 0, cur_len := 0, settle := true, sending := h.sending.map msg_start_extract } : HState).want_prio))
            (qt_eq_trans
              (ihS _ S_WRITE_ACQUIRE (by simp [h_set_wire, emit, hs]))
              ?_))
      · simp [qt_eq]
      · simp [qt_eq, h_set_wire, emit]
      · simp [qt_eq]

end Handler
end MoatBus
namespace MoatBus
namespace Handler

theorem q_send_next (h : HState) (hs : h.sending.isSome = true) :
    (h_send_next FUEL h).q = h.q := ((qt_cluster FUEL).2.1 h hs).1

theorem qp_send_next (h : HState) (hs : h.sending.isSome = true) :
    (h_send_next FUEL h).q_prio = h.q_prio := ((qt_cluster FUEL).2.1 h hs).2.1

theorem tr_send_next (h : HState) (hs : h.sending.isSome = true) :
    (h_send_next FUEL h).tries = h.tries := ((qt_cluster FUEL).2.1 h hs).2.2.1

/-- C5 counterexample: a priority-0 message is routed through the priority
queue by hdl_send, but h_retry pushes the failed message onto the head of
the NORMAL queue (and decrements tries), leaving the priority queue alone -
it does not return it to "its original send queue". -/
theorem C5_counterexample_prio0_requeued_to_normal_queue :
    (hdl_send { hdl_alloc 0 3 with sending := some (msg_alloc 6) }
        { msg_alloc 6 with prio := 0 }).q_prio = [{ msg_alloc 6 with prio := 0 }] ∧
    (hdl_send { hdl_alloc 0 3 with sending := some (msg_alloc 6) }
        { msg_alloc 6 with prio := 0 }).q = [] ∧
    (h_retry { hdl_alloc 0 3 with sending := some (msg_alloc 6) }
        { msg_alloc 6 with prio := 0 } HRes.missing).q = [{ msg_alloc 6 with prio := 0 }] ∧
    (h_retry { hdl_alloc 0 3 with sending := some (msg_alloc 6) }
        { msg_alloc 6 with prio := 0 } HRes.missing).q_prio = [] ∧
    (h_retry { hdl_alloc 0 3 with sending := some (msg_alloc 6) }
        { msg_alloc 6 with prio := 0 } HRes.missing).tries = 1 := by
  decide

/-- C5 (amended): h_retry is a bounded head-requeue onto the NORMAL queue.
With a send in flight, a recoverable failure either (tries would reach 1)
reports the terminal result through the transmitted callback without any
requeue, or pushes the failed message back at the head of h->q_first and
decrements the retry budget (initialized to 2/4/6 by failure kind). -/
theorem C5_retry_head_requeue_bounded (h : HState) (msg : BusMessage) (res : HRes)
    (hs : h.sending.isSome = true) (t0 : Nat)
    (ht0 : t0 = if h.tries = 0 then
        (if res = HRes.missing then 2 else if res = HRes.error then 4 else 6)
      else h.tries) :
    (t0 = 1 →
      (h_retry h msg res).q = h.q ∧ (h_retry h msg res).q_prio = h.q_prio ∧
      (h_retry h msg res).tries = 0 ∧
      (h_retry h msg res).events.take 2 = [Ev.transmittedEv msg res, Ev.debugEv]) ∧
    (t0 ≠ 1 →
      (h_retry h msg res).q = msg :: h.q ∧
      (h_retry h msg res).q_prio = h.q_prio ∧
      (h_retry h msg res).tries = t0 - 1) := by
  subst ht0
  cases res <;> by_cases hz : h.tries = 0 <;> by_cases h1 : h.tries = 1 <;>
    simp_all [h_retry, h_transmitted, emit, q_send_next, qp_send_next, tr_send_next]

end Handler
end MoatBus
namespace MoatBus
namespace Handler

/-- C5 witness: the retry theorem applied to the 3-wire handler with a send
in flight, a missing-ACK failure and a fresh retry budget (t0 = 2). -/
theorem C5_retry_head_requeue_bounded_witness :
    (2 = 1 →
      (h_retry { hdl_alloc 0 3 with sending := some (msg_alloc 6) } (msg_alloc 6) HRes.missing).q
          = ({ hdl_alloc 0 3 with sending := some (msg_alloc 6) } : HState).q ∧
      (h_retry { hdl_alloc 0 3 with sending := some (msg_alloc 6) } (msg_alloc 6) HRes.missing).q_prio
          = ({ hdl_alloc 0 3 with sending := some (msg_alloc 6) } : HState).q_prio ∧
      (h_retry { hdl_alloc 0 3 with sending := some (msg_alloc 6) } (msg_alloc 6) HRes.missing).tries = 0 ∧
      (h_retry { hdl_alloc 0 3 with sending := some (msg_alloc 6) } (msg_alloc 6) HRes.missing).events.take 2
          = [Ev.transmittedEv (msg_alloc 6) HRes.missing, Ev.debugEv]) ∧
    (2 ≠ 1 →
      (h_retry { hdl_alloc 0 3 with sending := some (msg_alloc 6) } (msg_alloc 6) HRes.missing).q
          = msg_alloc 6 :: ({ hdl_alloc 0 3 with sending := some (msg_alloc 6) } : HState).q ∧
      (h_retry { hdl_alloc 0 3 with sending := some (msg_alloc 6) } (msg_alloc 6) HRes.missing).q_prio
          = ({ hdl_alloc 0 3 with sending := some (msg_alloc 6) } : HState).q_prio ∧
      (h_retry { hdl_alloc 0 3 with sending := some (msg_alloc 6) } (msg_alloc 6) HRes.missing).tries = 2 - 1) :=
  C5_retry_head_requeue_bounded { hdl_alloc 0 3 with sending := some (msg_alloc 6) }
    (msg_alloc 6) HRes.missing (by decide) 2 (by decide)

end Handler
end MoatBus
namespace MoatBus
namespace Handler

/-- Backoff bookkeeping: with the no_backoff credit unset, the
set_state / send_next / start_writer web never changes the backoff
counter (the only write, in h_send_next_prio, is behind `if no_backoff`). -/
def bo_eq (h h' : HState) : Prop :=
  h'.backoff = h.backoff ∧ h'.no_backoff = h.no_backoff

theorem bo_eq_refl (h : HState) : bo_eq h h := by simp [bo_eq]

theorem bo_eq_trans {h1 h2 h3 : HState} (a : bo_eq h1 h2) (b : bo_eq h2 h3) :
    bo_eq h1 h3 := by
  unfold bo_eq at *
  simp_all

theorem bo_pre (h : HState) (st : Nat) (hnb : h.no_backoff = false) :
    bo_eq h (h_set_state_pre h st) := by
  unfold h_set_state_pre
  split_ifs <;> simp [bo_eq, h_set_wire, h_set_ack_mask, emit, hnb]

theorem bo_timeout (h : HState) (v : Nat) : bo_eq h (h_set_timeout h v) := by
  unfold h_set_timeout emit
  split_ifs <;> simp [bo_eq]

theorem bo_reset (h : HState) : bo_eq h (h_reset h) := by simp [bo_eq, h_reset]

theorem bo_prio (h : HState) (msg : BusMessage) (hnb : h.no_backoff = false) :
    bo_eq h (h_send_next_prio h msg) := by
  unfold h_send_next_prio
  split_ifs <;> simp_all [bo_eq, apply_ite HState.backoff, apply_ite HState.no_backoff]

theorem bo_pop (h : HState) : bo_eq h (h_send_next_pop h) := by
  unfold h_send_next_pop
  split_ifs
  · cases h.q_prio <;> [skip; simp [bo_eq]]
    cases h.q <;> simp [bo_eq]
  · exact bo_eq_refl h

theorem bo_cluster (fuel : Nat) :
    (∀ h st, h.no_backoff = false → bo_eq h (h_set_state fuel h st)) ∧
    (∀ h, h.no_backoff = false → bo_eq h (h_send_next fuel h)) ∧
    (∀ h, h.no_backoff = false → bo_eq h (h_start_writer fuel h)) := by
  induction fuel with
  | zero =>
    refine ⟨fun h st _ => ?_, fun h _ => ?_, fun h _ => ?_⟩ <;>
      simp [h_set_state, h_send_next, h_start_writer, bo_eq_refl]
  | succ fuel ih =>
    obtain ⟨ihS, ihN, ihW⟩ := ih
    refine ⟨fun h st hnb => ?_, fun h hnb => ?_, fun h hnb => ?_⟩
    · show bo_eq h (h_set_state (fuel + 1) h st)
      simp only [h_set_state]
      split_ifs with c1 c2 c3 c4 c5 c6
      · exact bo_eq_refl h
      · refine bo_eq_trans (bo_pre h st hnb) (bo_eq_trans ?_ (bo_timeout _ _))
        simp [bo_eq]
      · refine bo_eq_trans (bo_pre h st hnb) (bo_eq_trans ?_ (bo_timeout _ _))
        simp [bo_eq]
      · refine bo_eq_trans (bo_pre h st hnb)
          (bo_eq_trans ?_ (bo_eq_trans (bo_reset _)
            (bo_eq_trans (ihN _ (by simp [h_reset, (bo_pre h st hnb).2.trans hnb]))
              (bo_timeout _ _))))
        simp [bo_eq]
      · refine bo_eq_trans (bo_pre h st hnb)
          (bo_eq_trans ?_ (bo_eq_trans (bo_reset _)
            (bo_eq_trans (ihN _ (by simp [h_reset, (bo_pre h st hnb).2.trans hnb]))
              (bo_timeout _ _))))
        simp [bo_eq]
      · refine bo_eq_trans (bo_pre h st hnb)
          (bo_eq_trans ?_ (bo_eq_trans (bo_reset _)
            (bo_eq_trans (ihN _ (by simp [h_reset, (bo_pre h st hnb).2.trans hnb]))
              (bo_timeout _ _))))
        simp [bo_eq]
      · refine bo_eq_trans (bo_pre h st hnb) ?_
        simp [bo_eq]
    · show bo_eq h (h_send_next (fuel + 1) h)
      simp only [h_send_next]
      refine bo_eq_trans (bo_pop h) ?_
      cases hq : (h_send_next_pop h).sending with
      | none => exact bo_eq_refl _
      | some msg =>
        simp only [hq]
        have hnb2 : (h_send_next_pop h).no_backoff = false := (bo_pop h).2.trans hnb
        refine bo_eq_trans (bo_prio _ msg hnb2) ?_
        split_ifs with hc
        · exact ihW _ ((bo_prio _ msg hnb2).2.trans hnb2)
        · exact bo_eq_refl _
    · show bo_eq h (h_start_writer (fuel + 1) h)
      simp only [h_start_writer]
      refine bo_eq_trans
          (?_ : bo_eq h { h with cur_pos := 0, cur_len := 0, settle := true, sending := h.sending.map msg_start_extract })
          (bo_eq_trans
            (?_ : bo_eq _ (h_set_wire { h with cur_pos := 0, cur_len := 0, settle := true, sending := h.sending.map msg_start_extract }
              ({ h with cur_pos := 0, cur_len := 0, settle := true, sending := h.sending.map msg_start_extract } : HState).want_prio))
            (bo_eq_trans
              (ihS _ S_WRITE_ACQUIRE (by simp [h_set_wire, emit, hnb]))
              ?_))
      · simp [bo_eq]
      · simp [bo_eq, h_set_wire, emit]
      · simp [bo_eq]

theorem bo_send_next (h : HState) (hnb : h.no_backoff = false) :
    (h_send_next FUEL h).backoff = h.backoff := ((bo_cluster FUEL).2.1 h hnb).1

end Handler
end MoatBus
namespace MoatBus
namespace Handler

/-- C6: every transmitted-callback completion decays the backoff counter -
halved when above twice the minimum T_BACKOFF, floored at T_BACKOFF
otherwise - so it never drops below the minimum; and a recoverable retry
(h_retry with budget left, no_backoff credit unset) does NOT decay it:
the counter is preserved while the message is still being retried. -/
theorem C6_backoff_decay_on_transmit (h h' : HState) (msg : BusMessage) (res : HRes)
    (hs : h'.sending.isSome = true) (hnb : h'.no_backoff = false)
    (ht0 : h'.tries ≠ 0) (ht1 : h'.tries ≠ 1) :
    (h_transmitted h msg res).backoff
        = (if T_BACKOFF * 2 < h.backoff then h.backoff / 2 else T_BACKOFF) ∧
    T_BACKOFF ≤ (h_transmitted h msg res).backoff ∧
    (h_transmitted h msg res).tries = 0 ∧
    (h_transmitted h msg res).events.head? = some (Ev.transmittedEv msg res) ∧
    (h_retry h' msg res).backoff = h'.backoff := by
  refine ⟨by simp [h_transmitted, emit], ?_, by simp [h_transmitted, emit],
    by simp [h_transmitted, emit], ?_⟩
  · simp only [h_transmitted, emit]
    split_ifs with hc
    · simp only [T_BACKOFF] at hc ⊢
      omega
    · simp [T_BACKOFF]
  · cases res <;>
      simp [h_retry, emit, ht0, ht1, bo_send_next, hnb]

end Handler
end MoatBus
namespace MoatBus
namespace Handler

/-- C6 witness: the decay theorem applied to a handler with backoff 9 (above
2*T_BACKOFF, so halved to 4) and a retrying handler with budget 3. -/
theorem C6_backoff_decay_on_transmit_witness :
    (h_transmitted { hdl_alloc 0 3 with backoff := 9 } (msg_alloc 6) HRes.success).backoff
        = (if T_BACKOFF * 2 < ({ hdl_alloc 0 3 with backoff := 9 } : HState).backoff
           then ({ hdl_alloc 0 3 with backoff := 9 } : HState).backoff / 2 else T_BACKOFF) ∧
    T_BACKOFF ≤ (h_transmitted { hdl_alloc 0 3 with backoff := 9 } (msg_alloc 6) HRes.success).backoff ∧
    (h_transmitted { hdl_alloc 0 3 with backoff := 9 } (msg_alloc 6) HRes.success).tries = 0 ∧
    (h_transmitted { hdl_alloc 0 3 with backoff := 9 } (msg_alloc 6) HRes.success).events.head?
        = some (Ev.transmittedEv (msg_alloc 6) HRes.success) ∧
    (h_retry { hdl_alloc 0 3 with sending := some (msg_alloc 6), tries := 3 } (msg_alloc 6) HRes.success).backoff
        = ({ hdl_alloc 0 3 with sending := some (msg_alloc 6), tries := 3 } : HState).backoff :=
  C6_backoff_decay_on_transmit { hdl_alloc 0 3 with backoff := 9 }
    { hdl_alloc 0 3 with sending := some (msg_alloc 6), tries := 3 }
    (msg_alloc 6) HRes.success (by decide) (by decide) (by decide) (by decide)

end Handler
end MoatBus
namespace MoatBus

/-- C7: the serial framer round-trip LOSES the payload.  A message with
src 5 / dst 9 / code 2 and the two payload bytes 0x41 0x42 is framed by
sb_send / sb_byte_out into the frame [1, 5, 9, 5, 2, 65, 66, 108, 205];
feeding those bytes into a second framer passes the CRC check (err_crc
stays 0) and completes exactly one message, but the message sb_recv
delivers is empty: length 0 and src 0 instead of the original payload and
header, because the msg_add_chunk call in sb_byte_in's DATA state fails on
msg_resize and inserts nothing. -/
theorem C7_serial_roundtrip_loses_payload :
    msg_length { msg_add_data (msg_start_send (msg_alloc 20)) [0x41, 0x42] with
                   src := 5, dst := 9, code := 2, prio := 0 } = 2 ∧
    (sb_drain 40 (sb_send sb_alloc
        { msg_add_data (msg_start_send (msg_alloc 20)) [0x41, 0x42] with
            src := 5, dst := 9, code := 2, prio := 0 })).1
      = [1, 5, 9, 5, 2, 0x41, 0x42, 108, 205] ∧
    (sb_feed sb_alloc [1, 5, 9, 5, 2, 0x41, 0x42, 108, 205]).err_crc = 0 ∧
    (sb_feed sb_alloc [1, 5, 9, 5, 2, 0x41, 0x42, 108, 205]).m_done.length = 1 ∧
    ((sb_recv (sb_feed sb_alloc [1, 5, 9, 5, 2, 0x41, 0x42, 108, 205])).1.map msg_length)
      = some 0 ∧
    ((sb_recv (sb_feed sb_alloc [1, 5, 9, 5, 2, 0x41, 0x42, 108, 205])).1.map BusMessage.src)
      = some 0 := by
  decide

end MoatBus
namespace MoatBus

theorem xor_shl_eq_or (a b n : Nat) (hb : b < 2 ^ n) :
    (a <<< n) ^^^ b = (a <<< n) ||| b := by
  apply Nat.eq_of_testBit_eq
  intro j
  by_cases hj : j < n
  · have ha : (a <<< n).testBit j = false := by
      simp [Nat.testBit_shiftLeft]
      omega
    simp [Nat.testBit_xor, Nat.testBit_or, ha]
  · have hbj : b.testBit j = false :=
      Nat.testBit_lt_two_pow (lt_of_lt_of_le hb (Nat.pow_le_pow_right (by norm_num) (by omega)))
    simp [Nat.testBit_xor, Nat.testBit_or, hbj]

theorem sb_step_idle_lead (sb : SerBus) (c : Nat) (hs : sb.s_in = S_IDLE)
    (h1 : 0 < c) (h4 : c ≤ 4) :
    sb_byte_in sb c = { sb with idle := 0, s_in := S_LEN } := by
  have h6 : ¬ c = 6 := by omega
  simp [sb_byte_in, hs, h6, h1, h4]

theorem sb_step_len (sb : SerBus) (c : Nat) (hs : sb.s_in = S_LEN) (hn : c < 128) :
    sb_byte_in sb c = { sb with idle := 0, len_in := c, s_in := S_DATA } := by
  simp [sb_byte_in, hs, S_IDLE, S_INIT, S_LEN, and128_eq_zero c hn]

theorem sb_step_data (sb : SerBus) (c : Nat) (hs : sb.s_in = S_DATA)
    (hl : sb.len_in ≠ 0) :
    sb_byte_in sb c =
      (if sb.len_in - 1 = 0
       then { sb with idle := 0, m_in := (msg_add_chunk sb.m_in c 8).2
                      crc_in := crc16_update sb.crc_in c, len_in := sb.len_in - 1
                      s_in := S_CRC1 }
       else { sb with idle := 0, m_in := (msg_add_chunk sb.m_in c 8).2
                      crc_in := crc16_update sb.crc_in c, len_in := sb.len_in - 1 }) := by
  simp [sb_byte_in, hs, S_IDLE, S_INIT, S_LEN, S_LEN2, S_DATA, hl]

theorem sb_step_crc1 (sb : SerBus) (c : Nat) (hs : sb.s_in = S_CRC1) :
    sb_byte_in sb c =
      { sb with idle := 0, crc_in := sb.crc_in ^^^ (c <<< 8), s_in := S_CRC2 } := by
  simp [sb_byte_in, hs, S_IDLE, S_INIT, S_LEN, S_LEN2, S_DATA, S_CRC1]

theorem sb_step_crc2 (sb : SerBus) (c : Nat) (hs : sb.s_in = S_CRC2) :
    sb_byte_in sb c =
      (if sb.crc_in ^^^ c ≠ 0
       then sb_clear_in { sb with idle := 0, crc_in := sb.crc_in ^^^ c
                                  err_crc := sb.err_crc + 1 }
       else sb_clear_in (sb_alloc_in { sb with idle := 0, crc_in := sb.crc_in ^^^ c })) := by
  simp only [sb_byte_in, hs, S_IDLE, S_INIT, S_LEN, S_LEN2, S_DATA, S_CRC1, S_CRC2]
  norm_num
  rw [apply_ite sb_clear_in]

theorem sb_data_phase (payload : List Nat) : ∀ sb : SerBus,
    sb.s_in = S_DATA → sb.len_in = payload.length → 1 ≤ payload.length →
    (sb_feed sb payload).s_in = S_CRC1 ∧
    (sb_feed sb payload).crc_in = payload.foldl crc16_update sb.crc_in ∧
    (sb_feed sb payload).err_crc = sb.err_crc ∧
    (sb_feed sb payload).m_done = sb.m_done := by
  induction payload with
  | nil => intro sb _ _ h1; simp at h1
  | cons b rest ih =>
    intro sb hs hlen h1
    have hl : sb.len_in ≠ 0 := by simp [hlen]
    cases rest with
    | nil =>
      have hz : sb.len_in - 1 = 0 := by simp [hlen]
      simp [sb_feed, sb_step_data sb b hs hl, hz, S_CRC1]
    | cons b2 rest2 =>
      have hz : ¬ sb.len_in - 1 = 0 := by simp [hlen]
      have step := sb_step_data sb b hs hl
      rw [if_neg hz] at step
      have := ih { sb with idle := 0, m_in := (msg_add_chunk sb.m_in b 8).2
                           crc_in := crc16_update sb.crc_in b, len_in := sb.len_in - 1 }
        (by simp [S_DATA, hs]) (by simp [hlen]) (by simp)
      simp only [sb_feed, List.foldl_cons] at this ⊢
      rw [step]
      simpa using this

end MoatBus
namespace MoatBus

/-- C8: feeding a framed sequence (lead byte 1..4, one-byte length n < 128,
n payload bytes, two CRC bytes) whose trailing CRC-16 does not match the
CRC-16 of the payload makes the framer discard the in-progress frame: the
error counter increments by exactly one, the input machine returns to IDLE,
and no message becomes available via sb_recv; with a matching CRC the frame
is delivered instead (err_crc unchanged, one completed message). -/
theorem C8_crc_mismatch_discards_frame (sb0 : SerBus) (lead : Nat)
    (payload : List Nat) (c1 c2 : Nat)
    (h0 : sb0.s_in = S_IDLE) (hcrc0 : sb0.crc_in = 0) (hdone : sb0.m_done = [])
    (hl1 : 0 < lead) (hl4 : lead ≤ 4)
    (hn : payload.length < 128) (hn1 : 1 ≤ payload.length) (hc2 : c2 < 256) :
    ((c1 <<< 8) ||| c2 ≠ crc16_of payload →
      (sb_feed sb0 (lead :: payload.length :: (payload ++ [c1, c2]))).err_crc
          = sb0.err_crc + 1 ∧
      (sb_feed sb0 (lead :: payload.length :: (payload ++ [c1, c2]))).s_in = S_IDLE ∧
      (sb_feed sb0 (lead :: payload.length :: (payload ++ [c1, c2]))).m_done = [] ∧
      (sb_recv (sb_feed sb0 (lead :: payload.length :: (payload ++ [c1, c2])))).1 = none) ∧
    ((c1 <<< 8) ||| c2 = crc16_of payload →
      (sb_feed sb0 (lead :: payload.length :: (payload ++ [c1, c2]))).err_crc = sb0.err_crc ∧
      (sb_feed sb0 (lead :: payload.length :: (payload ++ [c1, c2]))).s_in = S_IDLE ∧
      (sb_feed sb0 (lead :: payload.length :: (payload ++ [c1, c2]))).m_done.length = 1) := by
  have e0 : sb_feed sb0 (lead :: payload.length :: (payload ++ [c1, c2]))
      = sb_byte_in (sb_byte_in
          (sb_feed (sb_byte_in (sb_byte_in sb0 lead) payload.length) payload) c1) c2 := by
    simp [sb_feed, List.foldl_append]
  rw [e0, sb_step_idle_lead sb0 lead h0 hl1 hl4, sb_step_len _ _ rfl hn]
  obtain ⟨d1, d2, d3, d4⟩ := sb_data_phase payload
    { sb0 with idle := 0, len_in := payload.length, s_in := S_DATA } rfl rfl hn1
  set X := sb_feed { sb0 with idle := 0, len_in := payload.length, s_in := S_DATA } payload with hX
  rw [sb_step_crc1 _ c1 d1, sb_step_crc2 _ c2 rfl]
  have hx : X.crc_in = crc16_of payload := by
    rw [d2]
    simp [hcrc0, crc16_of]
  have hiff : (X.crc_in ^^^ (c1 <<< 8)) ^^^ c2 = 0
      ↔ (c1 <<< 8) ||| c2 = crc16_of payload := by
    rw [hx, Nat.xor_assoc, xor_shl_eq_or c1 c2 8 (by norm_num; omega), Nat.xor_eq_zero]
    exact eq_comm
  have hd3 : X.err_crc = sb0.err_crc := by rw [d3]
  have hd4 : X.m_done = [] := by rw [d4]; exact hdone
  constructor
  · intro hm
    rw [if_pos (by simpa [hiff] using hm)]
    simp [sb_clear_in, sb_recv, hd3, hd4, S_IDLE]
  · intro hp
    rw [if_neg (by simpa [hiff] using hp)]
    simp [sb_clear_in, sb_alloc_in, sb_recv, hd3, hd4, S_IDLE]

end MoatBus
namespace MoatBus

/-- C8 witness: the CRC theorem applied to a fresh framer, lead byte 1,
payload "AB" and the (wrong) CRC bytes 0, 0. -/
theorem C8_crc_mismatch_discards_frame_witness :
    ((0 <<< 8) ||| 0 ≠ crc16_of [65, 66] →
      (sb_feed sb_alloc (1 :: [65, 66].length :: ([65, 66] ++ [0, 0]))).err_crc
          = sb_alloc.err_crc + 1 ∧
      (sb_feed sb_alloc (1 :: [65, 66].length :: ([65, 66] ++ [0, 0]))).s_in = S_IDLE ∧
      (sb_feed sb_alloc (1 :: [65, 66].length :: ([65, 66] ++ [0, 0]))).m_done = [] ∧
      (sb_recv (sb_feed sb_alloc (1 :: [65, 66].length :: ([65, 66] ++ [0, 0])))).1 = none) ∧
    ((0 <<< 8) ||| 0 = crc16_of [65, 66] →
      (sb_feed sb_alloc (1 :: [65, 66].length :: ([65, 66] ++ [0, 0]))).err_crc = sb_alloc.err_crc ∧
      (sb_feed sb_alloc (1 :: [65, 66].length :: ([65, 66] ++ [0, 0]))).s_in = S_IDLE ∧
      (sb_feed sb_alloc (1 :: [65, 66].length :: ([65, 66] ++ [0, 0]))).m_done.length = 1) :=
  C8_crc_mismatch_discards_frame sb_alloc 1 [65, 66] 0 0
    (by decide) (by decide) (by decide) (by decide) (by decide)
    (by decide) (by decide) (by decide)

end MoatBus
namespace MoatBus
namespace Handler

theorem fillRep_spec (v : Nat) : ∀ (k i : Nat) (chunk : List Nat),
    (fillRep chunk i k v).length = chunk.length ∧
    (∀ j, j < i → (fillRep chunk i k v).getD j 0 = chunk.getD j 0) ∧
    (∀ j, i ≤ j → j < i + k → j < chunk.length →
      (fillRep chunk i k v).getD j 0 = v % 256) := by
  intro k
  induction k with
  | zero => intro i chunk; refine ⟨rfl, fun j _ => rfl, fun j h1 h2 _ => by omega⟩
  | succ k ih =>
    intro i chunk
    obtain ⟨l1, l2, l3⟩ := ih (i + 1) (setByte chunk i (v % 256))
    refine ⟨?_, fun j hj => ?_, fun j h1 h2 h3 => ?_⟩
    · show (fillRep (setByte chunk i (v % 256)) (i + 1) k v).length = chunk.length
      rw [l1]
      simp [setByte]
    · show (fillRep (setByte chunk i (v % 256)) (i + 1) k v).getD j 0 = chunk.getD j 0
      rw [l2 j (by omega)]
      simp [setByte, List.getD]
      rw [List.getElem?_set_ne (by omega)]
    · show (fillRep (setByte chunk i (v % 256)) (i + 1) k v).getD j 0 = v % 256
      by_cases hji : j = i
      · subst hji
        rw [l2 j (by omega)]
        simp [setByte, List.getD]
        rw [List.getElem?_set_self' ]
        simp [List.getElem?_eq_getElem h3]
      · exact l3 j (by omega) (by omega) (by simpa [setByte])

end Handler
end MoatBus
namespace MoatBus
namespace Handler

theorem fillDigits_spec (mx : Nat) (hmx : 0 < mx) (hmx2 : mx < 256) :
    ∀ (k i : Nat) (chunk : List Nat) (val : Nat),
    (fillDigits mx chunk i k val).length = chunk.length ∧
    (∀ j, j < i → (fillDigits mx chunk i k val).getD j 0 = chunk.getD j 0) ∧
    (∀ j, i ≤ j → j < i + k → j < chunk.length →
      1 ≤ (fillDigits mx chunk i k val).getD j 0 ∧
      (fillDigits mx chunk i k val).getD j 0 ≤ mx) := by
  intro k
  induction k with
  | zero => intro i chunk val; refine ⟨rfl, fun j _ => rfl, fun j h1 h2 _ => by omega⟩
  | succ k ih =>
    intro i chunk val
    have hp : val - val / mx * mx < mx := by
      have hd := Nat.div_add_mod val mx
      have hle : val / mx * mx ≤ val := Nat.div_mul_le_self val mx
      have hm : val % mx < mx := Nat.mod_lt _ hmx
      have hc : mx * (val / mx) = val / mx * mx := Nat.mul_comm _ _
      omega
    have hpm : (val - val / mx * mx + 1) % 256 = val - val / mx * mx + 1 :=
      Nat.mod_eq_of_lt (by omega)
    obtain ⟨l1, l2, l3⟩ := ih (i + 1)
      (setByte chunk i ((val - val / mx * mx + 1) % 256)) (val / mx)
    refine ⟨?_, fun j hj => ?_, fun j h1 h2 h3 => ?_⟩
    · show (fillDigits mx (setByte chunk i ((val - val / mx * mx + 1) % 256)) (i + 1) k (val / mx)).length = chunk.length
      rw [l1]
      simp [setByte]
    · show (fillDigits mx (setByte chunk i ((val - val / mx * mx + 1) % 256)) (i + 1) k (val / mx)).getD j 0 = chunk.getD j 0
      rw [l2 j (by omega)]
      simp [setByte, List.getD]
      rw [List.getElem?_set_ne (by omega)]
    · show 1 ≤ (fillDigits mx (setByte chunk i ((val - val / mx * mx + 1) % 256)) (i + 1) k (val / mx)).getD j 0 ∧
          (fillDigits mx (setByte chunk i ((val - val / mx * mx + 1) % 256)) (i + 1) k (val / mx)).getD j 0 ≤ mx
      by_cases hji : j = i
      · subst hji
        rw [l2 j (by omega)]
        have hset : (setByte chunk j ((val - val / mx * mx + 1) % 256)).getD j 0
            = (val - val / mx * mx + 1) % 256 := by
          simp [setByte, List.getD]
          rw [List.getElem?_set_self']
          simp [List.getElem?_eq_getElem h3]
        rw [hset, hpm]
        omega
      · exact l3 j (by omega) (by omega) (by simpa [setByte])

theorem set_state_wcrc (fuel : Nat) (h : HState) :
    h_set_state (fuel + 1) h S_WRITE_CRC
      = if S_WRITE_CRC = h.state then h else { h with state := S_WRITE_CRC } := by
  simp [h_set_state, h_set_state_pre, S_WRITE_CRC, S_IDLE, S_WRITE,
    S_READ_ACK, S_WRITE_ACK, S_READ_ACQUIRE, S_WRITE_ACQUIRE]

end Handler
end MoatBus
namespace MoatBus
namespace Handler

theorem xor_symbol (last res mx : Nat) (hl : last < 256)
    (h1 : 1 ≤ res) (h2 : res ≤ mx) (hm : mx < 256) :
    (last ^^^ res) % 256 = last ^^^ res ∧ last ^^^ res ≠ last := by
  have hr : res < 256 := lt_of_le_of_lt h2 hm
  have hx : last ^^^ res < 256 := by
    have := Nat.xor_lt_two_pow (n := 8) (by simpa using hl) (by simpa using hr)
    simpa using this
  refine ⟨Nat.mod_eq_of_lt hx, fun heq => ?_⟩
  have h0 : res = 0 := by
    have hq := congrArg (fun x => last ^^^ x) heq
    simpa [← Nat.xor_assoc] using hq
  omega

end Handler
end MoatBus
namespace MoatBus
namespace Handler

theorem set_state_wcrc_F (h : HState) :
    h_set_state FUEL h S_WRITE_CRC
      = if S_WRITE_CRC = h.state then h else { h with state := S_WRITE_CRC } :=
  set_state_wcrc 7 h

end Handler
end MoatBus
namespace MoatBus
namespace Handler

/-- C10: whenever h_write_next produces a symbol to transmit (returns true)
- whether taken from a partially sent chunk whose entries are in range, or
from a chunk freshly generated by h_gen_chunk in the WRITE (W_MORE: end
marker or data) or WRITE_CRC (W_END/W_FINAL: CRC digits) paths - the symbol
res satisfies 1 <= res <= MAX (never zero), the new intended wire pattern
is exactly last XOR res, and hence differs from the previously asserted
pattern; last itself is unchanged by the step. -/
theorem C10_writer_symbol_invariant (env : Env) (h : HState)
    (hM1 : 0 < h.MAX) (hM2 : h.MAX < 256) (hL : h.last < 256)
    (hlen : h.cur_chunk.length = 7)
    (hLEN1 : 1 ≤ h.LEN) (hLEN7 : h.LEN ≤ 7)
    (hLC1 : 1 ≤ h.LEN_CRC) (hLC7 : h.LEN_CRC ≤ 7)
    (hNE1 : 1 ≤ h.N_END) (hNE7 : h.N_END ≤ 7)
    (hpos7 : h.cur_pos ≤ 7)
    (hck : ∀ j, j < h.cur_pos → 1 ≤ h.cur_chunk.getD j 0 ∧ h.cur_chunk.getD j 0 ≤ h.MAX)
    (hws : h.cur_pos = 0 → h.write_state = W_MORE ∨ h.write_state = W_END ∨ h.write_state = W_FINAL) :
    (h_write_next env h).1 = true →
    ∃ res, 1 ≤ res ∧ res ≤ h.MAX ∧
      (h_write_next env h).2.intended = h.last ^^^ res ∧
      (h_write_next env h).2.intended ≠ h.last ∧
      (h_write_next env h).2.last = h.last := by
  intro htrue
  by_cases hp : h.cur_pos = 0
  · rcases hws hp with hw | hw | hw
    · by_cases hm : msg_extract_more (h.sending.getD default)
      · by_cases hv : h.VAL_MAX ≤ (msg_extract_chunk (h.sending.getD default) h.BITS).1
        · simp [h_write_next, if_pos hp, h_gen_chunk, hw, hm, hv, genFinish,
            W_MORE, W_CRC, W_END, W_FINAL]
          simp only [← List.getD_eq_getElem?_getD]
          obtain ⟨g1, g2, g3⟩ := fillDigits_spec h.MAX hM1 hM2 h.LEN 0 h.cur_chunk
            (msg_extract_chunk (h.sending.getD default) h.BITS).1
          obtain ⟨b1, b2⟩ := g3 (h.LEN - 1) (by omega) (by omega) (by omega)
          obtain ⟨x1, x2⟩ := xor_symbol h.last _ h.MAX hL b1 b2 hM2
          exact ⟨_, b1, b2, x1, fun he => x2 (x1.symm.trans he)⟩
        · simp [h_write_next, if_pos hp, h_gen_chunk, hw, hm, hv, genFinish,
            W_MORE, W_CRC, W_END, W_FINAL]
          simp only [← List.getD_eq_getElem?_getD]
          obtain ⟨g1, g2, g3⟩ := fillDigits_spec h.MAX hM1 hM2 h.LEN 0 h.cur_chunk
            (msg_extract_chunk (h.sending.getD default) h.BITS).1
          obtain ⟨b1, b2⟩ := g3 (h.LEN - 1) (by omega) (by omega) (by omega)
          obtain ⟨x1, x2⟩ := xor_symbol h.last _ h.MAX hL b1 b2 hM2
          exact ⟨_, b1, b2, x1, fun he => x2 (x1.symm.trans he)⟩
      · have hne0 : ¬ h.N_END = 0 := by omega
        simp [h_write_next, if_pos hp, h_gen_chunk, hw, hm, hne0, genFinish,
          W_MORE, W_CRC, W_END, W_FINAL]
        simp only [← List.getD_eq_getElem?_getD]
        obtain ⟨f1, f2, f3⟩ := fillRep_spec h.MAX h.N_END 0 h.cur_chunk
        have hres : (fillRep h.cur_chunk 0 h.N_END h.MAX).getD (h.N_END - 1) 0 = h.MAX := by
          rw [f3 (h.N_END - 1) (by omega) (by omega) (by omega)]
          exact Nat.mod_eq_of_lt hM2
        obtain ⟨x1, x2⟩ := xor_symbol h.last ((fillRep h.cur_chunk 0 h.N_END h.MAX).getD (h.N_END - 1) 0)
          h.MAX hL (by rw [hres]; omega) (le_of_eq hres) hM2
        exact ⟨_, by rw [hres]; omega, le_of_eq hres, x1, fun he => x2 (x1.symm.trans he)⟩
    · by_cases hst : S_WRITE_CRC = h.state
      · simp [h_write_next, if_pos hp, h_gen_chunk, hw, ← hst, genFinish, set_state_wcrc_F,
          W_MORE, W_CRC, W_END, W_FINAL]
        simp only [← List.getD_eq_getElem?_getD]
        obtain ⟨g1, g2, g3⟩ := fillDigits_spec h.MAX hM1 hM2 h.LEN_CRC 0 h.cur_chunk h.crc
        obtain ⟨b1, b2⟩ := g3 (h.LEN_CRC - 1) (by omega) (by omega) (by omega)
        obtain ⟨x1, x2⟩ := xor_symbol h.last _ h.MAX hL b1 b2 hM2
        exact ⟨_, b1, b2, x1, fun he => x2 (x1.symm.trans he)⟩
      · simp [h_write_next, if_pos hp, h_gen_chunk, hw, hst, genFinish, set_state_wcrc_F,
          W_MORE, W_CRC, W_END, W_FINAL]
        simp only [← List.getD_eq_getElem?_getD]
        obtain ⟨g1, g2, g3⟩ := fillDigits_spec h.MAX hM1 hM2 h.LEN_CRC 0 h.cur_chunk h.crc
        obtain ⟨b1, b2⟩ := g3 (h.LEN_CRC - 1) (by omega) (by omega) (by omega)
        obtain ⟨x1, x2⟩ := xor_symbol h.last _ h.MAX hL b1 b2 hM2
        exact ⟨_, b1, b2, x1, fun he => x2 (x1.symm.trans he)⟩
    · by_cases hst : S_WRITE_CRC = h.state
      · simp [h_write_next, if_pos hp, h_gen_chunk, hw, ← hst, genFinish, set_state_wcrc_F,
          W_MORE, W_CRC, W_END, W_FINAL]
        simp only [← List.getD_eq_getElem?_getD]
        obtain ⟨g1, g2, g3⟩ := fillDigits_spec h.MAX hM1 hM2 h.LEN_CRC 0 h.cur_chunk h.crc
        obtain ⟨b1, b2⟩ := g3 (h.LEN_CRC - 1) (by omega) (by omega) (by omega)
        obtain ⟨x1, x2⟩ := xor_symbol h.last _ h.MAX hL b1 b2 hM2
        exact ⟨_, b1, b2, x1, fun he => x2 (x1.symm.trans he)⟩
      · simp [h_write_next, if_pos hp, h_gen_chunk, hw, hst, genFinish, set_state_wcrc_F,
          W_MORE, W_CRC, W_END, W_FINAL]
        simp only [← List.getD_eq_getElem?_getD]
        obtain ⟨g1, g2, g3⟩ := fillDigits_spec h.MAX hM1 hM2 h.LEN_CRC 0 h.cur_chunk h.crc
        obtain ⟨b1, b2⟩ := g3 (h.LEN_CRC - 1) (by omega) (by omega) (by omega)
        obtain ⟨x1, x2⟩ := xor_symbol h.last _ h.MAX hL b1 b2 hM2
        exact ⟨_, b1, b2, x1, fun he => x2 (x1.symm.trans he)⟩
  · simp only [h_write_next, if_neg hp]
    obtain ⟨hr1, hr2⟩ := hck (h.cur_pos - 1) (by omega)
    obtain ⟨hm1, hm2⟩ := xor_symbol h.last (h.cur_chunk.getD (h.cur_pos - 1) 0) h.MAX hL hr1 hr2 hM2
    exact ⟨h.cur_chunk.getD (h.cur_pos - 1) 0, hr1, hr2, hm1,
      fun he => hm2 (hm1.symm.trans he), trivial⟩


/-- C10 witness: the invariant applied to the fresh 3-wire handler (chunk
generation takes the end-marker path, N_END = 2, MAX = 7). -/
theorem C10_writer_symbol_invariant_witness :
    ∃ res, 1 ≤ res ∧ res ≤ (hdl_alloc 0 3).MAX ∧
      (h_write_next (⟨fun _ => true, id⟩ : Env) (hdl_alloc 0 3)).2.intended
          = (hdl_alloc 0 3).last ^^^ res ∧
      (h_write_next (⟨fun _ => true, id⟩ : Env) (hdl_alloc 0 3)).2.intended
          ≠ (hdl_alloc 0 3).last ∧
      (h_write_next (⟨fun _ => true, id⟩ : Env) (hdl_alloc 0 3)).2.last
          = (hdl_alloc 0 3).last :=
  C10_writer_symbol_invariant (⟨fun _ => true, id⟩ : Env) (hdl_alloc 0 3)
    (by decide) (by decide) (by decide) (by decide) (by decide) (by decide)
    (by decide) (by decide) (by decide) (by decide) (by decide)
    (by decide) (by decide) (by decide)

end Handler
end MoatBus
